import Mathlib

/-!
Verification development for the query-understanding and
relationship-inference pipeline of the knowledge-store platform.

The JavaScript source modules are shallowly embedded as Lean definitions:
pure functions become Lean functions, stateful code becomes explicit state
passing, fallible code returns Option or Except.  JavaScript numbers are
modelled exactly (rationals for the self-contained numeric code, reals for
the authority computations that use a fractional power); where NaN can
actually arise it is modelled by Option.  Character handling is ASCII,
matching every string the embedded code manipulates.
-/

namespace KS

/-! ## Small string utilities shared by several modules -/

/-- Boolean list-prefix test (used to implement the substring test). -/
def isPfx : List Char → List Char → Bool
  | [], _ => true
  | _ :: _, [] => false
  | a :: as, b :: bs => a == b && isPfx as bs

/-- Boolean contiguous-substring test, the model of the JavaScript
String.includes method. -/
def substrB (needle hay : List Char) : Bool :=
  (List.range (hay.length + 1)).any fun i => isPfx needle (List.drop i hay)

/-- Model of the JavaScript toLowerCase (ASCII): lowercase each character. -/
def lowerStr (s : String) : String := String.mk (s.toList.map Char.toLower)

/-- hay.includes(needle) on strings. -/
def jsIncludes (hay needle : String) : Bool := substrB needle.toList hay.toList

/-- Model of the JavaScript Array.slice(-n): the last n elements. -/
def lastN {α : Type} (n : Nat) (l : List α) : List α := l.drop (l.length - n)

/-! ## ContextManager (agent/core/QueryEngine.js, class ContextManager)

Only the fields of the previous-context object that calculateRelevance
reads are modelled. -/

/-- The previous-context fields read by calculateRelevance. -/
structure PrevContext where
  entityStack : List String
  topicFlow : List String

/-- Embedding of ContextManager.calculateRelevance.  The guard returns the
fixed value 0.3 when there is no previous context or its entity stack is
empty; otherwise 0.3 is added per remembered entity (last three) found in
the lowercased message, 0.2 per remembered topic (last two), capped at 1. -/
def calculateRelevance (message : String) (previousContext : Option PrevContext) : ℚ :=
  match previousContext with
  | none => 0.3
  | some pc =>
    if pc.entityStack.length = 0 then 0.3
    else
      let messageLower := lowerStr message
      let r1 := (lastN 3 pc.entityStack).foldl
        (fun acc entity => if jsIncludes messageLower (lowerStr entity) then acc + 0.3 else acc) 0
      let r2 :=
        if pc.topicFlow.length > 0 then
          (lastN 2 pc.topicFlow).foldl
            (fun acc topic => if jsIncludes messageLower (lowerStr topic) then acc + 0.2 else acc) r1
        else r1
      min r2 1

/-- The relevance score exactly as the specification sentence words it:
start at 0, add 0.3 for each of the last three stacked entities found in
the message (case-insensitive substring), add 0.2 for each of the last two
topics similarly found, clamp the total to the unit interval; a missing
previous context gives the fixed value 0.3.  Stated for comparison with
calculateRelevance, which is translated from the code. -/
def relevanceClaim (message : String) (previousContext : Option PrevContext) : ℚ :=
  match previousContext with
  | none => 0.3
  | some pc =>
    let messageLower := lowerStr message
    let c1 := (lastN 3 pc.entityStack).countP (fun e => jsIncludes messageLower (lowerStr e))
    let c2 := (lastN 2 pc.topicFlow).countP (fun t => jsIncludes messageLower (lowerStr t))
    min (max (0.3 * (c1 : ℚ) + 0.2 * (c2 : ℚ)) 0) 1

/-! ## DiscoveryQueryBuilder.parseAmount (agent/core/QueryEngine.js)

The regular expression ([0-9,]+(?:\.[0-9]+)?)\s*([MBT]?) with the i flag
is embedded as a direct scanner: its leftmost match starts at the first
digit-or-comma character (the tail of the expression can always match the
empty string), the numeric token is the maximal digit-or-comma run plus an
optional dot-digits fraction, then optional whitespace and an optional
one-letter suffix.  parseFloat of a string with no digits is NaN, which is
modelled as none. -/

def isDigitComma (c : Char) : Bool := c.isDigit || c == ','

/-- JavaScript whitespace class over ASCII. -/
def isWsJS (c : Char) : Bool :=
  c == ' ' || c.toNat == 9 || c.toNat == 10 || c.toNat == 11 || c.toNat == 12 || c.toNat == 13

/-- Value of a (most-significant-first) digit list. -/
def digitsToNat (ds : List Char) : Nat := ds.foldl (fun a c => 10 * a + (c.toNat - 48)) 0

/-- Model of JavaScript parseFloat restricted to the token shapes the
amount scanner can produce: optional integer digits, then an optional dot
and fraction digits, trailing characters ignored.  A token with no digits
at all parses to NaN, modelled as none. -/
def parseFloatJS (t : List Char) : Option ℚ :=
  let intPart := t.takeWhile Char.isDigit
  let rest := t.drop intPart.length
  let fracPart :=
    match rest with
    | '.' :: r2 => r2.takeWhile Char.isDigit
    | _ => []
  if intPart.isEmpty && fracPart.isEmpty then none
  else some ((digitsToNat intPart : ℚ) + (digitsToNat fracPart : ℚ) / (10 : ℚ) ^ fracPart.length)

/-- Greedy scan of the first regex group starting at position i: the
maximal digit-or-comma run, extended by a dot and fraction digits when
present.  Returns the matched numeric token and the remaining input. -/
def amountNumTok (s : List Char) (i : Nat) : List Char × List Char :=
  let numRun := (s.drop i).takeWhile isDigitComma
  let afterNum := s.drop (i + numRun.length)
  match afterNum with
  | '.' :: r2 =>
    let fr := r2.takeWhile Char.isDigit
    if fr.isEmpty then (numRun, afterNum) else (numRun ++ '.' :: fr, r2.drop fr.length)
  | _ => (numRun, afterNum)

/-- The second regex group: skip whitespace, then an optional one-letter
M, B or T suffix, case-insensitive; the code uppercases it. -/
def amountUnit (rest : List Char) : Option Char :=
  match rest.dropWhile isWsJS with
  | c :: _ =>
    if c == 'M' || c == 'm' || c == 'B' || c == 'b' || c == 'T' || c == 't' then
      some c.toUpper
    else none
  | [] => none

/-- The switch on the uppercased unit at the end of parseAmount. -/
def applyUnit (unit : Option Char) (value : Option ℚ) : Option ℚ :=
  match unit with
  | some 'M' => value.map (fun v => v * 1000000)
  | some 'B' => value.map (fun v => v * 1000000000)
  | some 'T' => value.map (fun v => v * 1000000000000)
  | _ => value

/-- Embedding of DiscoveryQueryBuilder.parseAmount.  The result is the
JavaScript number returned: some q for an ordinary number, none for NaN.
The leftmost match of the amount pattern starts at the first
digit-or-comma character since the rest of the pattern can be empty;
no match at all returns 0. -/
def parseAmount (amountText : String) : Option ℚ :=
  let s := amountText.toList
  match s.findIdx? isDigitComma with
  | none => some 0
  | some i =>
    let (numTok, rest) := amountNumTok s i
    applyUnit (amountUnit rest) (parseFloatJS (numTok.filter (fun c => !(c == ','))))

/-! ## QueryEngine.executeQueryPlan (agent/core/QueryEngine.js)

The external store is a function from query data to either a result object
or a thrown error message; a per-request timing function models the
wall-clock measurement.  The executor reference models
this.graphDb || this.knowledgeStore already coalesced. -/

/-- One named query of a plan: template text and bound parameters. -/
structure QueryData where
  cypher : String
  parameters : List (String × String)

/-- The object the store resolves with; the records field may be absent. -/
structure StoreResult where
  records : Option (List String)

/-- The per-query entry recorded in the execution results. -/
structure QueryOutcome where
  records : Option (List String)
  error : Option String
  executionTime : Nat
  recordCount : Nat
deriving DecidableEq

/-- The body of the per-query loop of executeQueryPlan: a successful query
is recorded with its rows, timing and row count; a thrown error is caught
and recorded as error with zero time and zero count. -/
def runNamedQuery (executor : QueryData → Except String StoreResult)
    (timing : String → Nat) (name : String) (q : QueryData) : QueryOutcome :=
  match executor q with
  | .ok result =>
    { records := result.records, error := none, executionTime := timing name,
      recordCount := match result.records with | some rs => rs.length | none => 0 }
  | .error e => { records := none, error := some e, executionTime := 0, recordCount := 0 }

/-- Embedding of QueryEngine.executeQueryPlan: with no store configured the
whole plan throws a configuration error; otherwise every named query is
executed and its outcome recorded under its name. -/
def executeQueryPlan (executor : Option (QueryData → Except String StoreResult))
    (timing : String → Nat) (queries : List (String × QueryData)) :
    Except String (List (String × QueryOutcome)) :=
  match executor with
  | none => Except.error "No database connection available (graphDb or knowledgeStore)"
  | some ex => Except.ok (queries.map (fun nq => (nq.1, runNamedQuery ex timing nq.1 nq.2)))

/-! ## PrivateMarketsAgent.processQuery (the orchestrator)

The pipeline stages (context lookup, NLU, query execution, response
generation, conversation update) are external collaborators from the
orchestrator's viewpoint; each is a function that either returns a value
or throws.  Query ids, timestamps and statistics counters are ambient
clock or randomness and are not read by the claim, so they are omitted;
the pure statistics updates in the code cannot throw. -/

/-- A thrown JavaScript error: message and optional code. -/
structure ErrObj where
  message : String
  code : Option String

/-- The error field of the degraded response. -/
structure AgentErrInfo where
  message : String
  etype : String
  code : String
deriving DecidableEq

/-- The stage functions processQuery calls inside its try block. -/
structure AgentDeps (Ctx NLUOut QR Resp Turn : Type) where
  getContextForTurn : String → Except ErrObj (Option Ctx)
  processMessage : String → Option Ctx → Except ErrObj NLUOut
  executeQuery : NLUOut → Option Ctx → Except ErrObj QR
  generateResponse : QR → NLUOut → Option Ctx → Except ErrObj Resp
  addTurn : String → String → Resp → NLUOut → QR → Except ErrObj Turn
  queryError : QR → Bool
  respConversationId : Resp → String

/-- The successful response shape (the response object fields spread into
the final response, plus conversation info when a turn was recorded). -/
structure AgentSuccess (QR Resp Turn : Type) where
  success : Bool
  response : Resp
  turn : Option Turn

/-- The value processQuery returns: either the completed response built
from the pipeline stages, or the degraded error response of the catch
block. -/
inductive AgentResult (QR Resp Turn : Type) where
  | completed (s : AgentSuccess QR Resp Turn)
  | degraded (error : AgentErrInfo) (textualAnswer : String) (confidence : ℚ)
      (followUpSuggestions : List String)

/-- The try-block of processQuery as an Except pipeline. -/
def runTurn {Ctx NLUOut QR Resp Turn : Type}
    (deps : AgentDeps Ctx NLUOut QR Resp Turn) (message : String)
    (conversationId : Option String) (enableConversationAnalytics : Bool) :
    Except ErrObj (AgentSuccess QR Resp Turn) := do
  let context ← match conversationId with
    | some cid => deps.getContextForTurn cid
    | none => pure none
  let nluOutput ← deps.processMessage message context
  let queryResults ← deps.executeQuery nluOutput context
  let response ← deps.generateResponse queryResults nluOutput context
  let turn ←
    if conversationId.isSome || enableConversationAnalytics then do
      let actualConversationId := conversationId.getD (deps.respConversationId response)
      let t ← deps.addTurn actualConversationId message response nluOutput queryResults
      pure (some t)
    else pure none
  pure { success := !deps.queryError queryResults, response := response, turn := turn }

/-- The generic apology of the catch block of processQuery. -/
def agentApology : String :=
  "I apologize, but I encountered an unexpected error while processing your request. Please try again or contact support if the issue persists."

/-- The generic follow-up suggestions of the catch block of processQuery. -/
def agentFollowUps : List String :=
  ["Try rephrasing your question",
   "Ask about a specific company or fund",
   "Check if the entity names are spelled correctly"]

/-- Embedding of PrivateMarketsAgent.processQuery: the whole pipeline runs
inside a try block whose catch converts any thrown error into a degraded
response with the generic apology, zero confidence and the generic
follow-up list. -/
def processQuery {Ctx NLUOut QR Resp Turn : Type}
    (deps : AgentDeps Ctx NLUOut QR Resp Turn) (message : String)
    (conversationId : Option String) (enableConversationAnalytics : Bool) :
    AgentResult QR Resp Turn :=
  match runTurn deps message conversationId enableConversationAnalytics with
  | .ok s => .completed s
  | .error e =>
    .degraded { message := e.message, etype := "agent_error", code := e.code.getD "UNKNOWN_ERROR" }
      agentApology 0 agentFollowUps

/-! ## SourceIntelligence (intelligence/SourceIntelligence.js)

Authorities and confidences are real numbers; the time decay uses a real
power, so this part of the development is noncomputable.  Timestamps are
real-valued milliseconds as produced by Date.now(). -/

noncomputable section

open Classical

/-- The fixed properties a source type is registered with. -/
structure SourceProps where
  authority : ℝ
  category : String
  reliability : ℝ
  timeliness : ℝ
  verificationRequired : Bool

/-- A registry entry: the registered properties plus the mutable
performance state initialised by registerSourceType. -/
structure SourceConfig extends SourceProps where
  registeredAt : ℝ
  validationCount : Nat
  successRate : ℝ
  recentPerformance : List ℝ

/-- Embedding of SourceIntelligence.registerSourceType. -/
def registerSourceType (properties : SourceProps) (now : ℝ) : SourceConfig :=
  { toSourceProps := properties, registeredAt := now, validationCount := 0,
    successRate := 0.5, recentPerformance := [] }

/-- The source registry: a map from source-type name to its entry. -/
abbrev Registry := String → Option SourceConfig

/-- Embedding of initializeSourceAuthority: the nine source types
registered at startup, all at the same registration instant. -/
def initializeSourceAuthority (now : ℝ) : Registry := fun sourceType =>
  if sourceType = "SEC_FILINGS" then
    some (registerSourceType
      { authority := 0.95
        category := "regulatory"
        reliability := 0.98
        timeliness := 0.85
        verificationRequired := false } now)
  else if sourceType = "COMPANY_ANNOUNCEMENTS" then
    some (registerSourceType
      { authority := 0.90
        category := "official"
        reliability := 0.95
        timeliness := 0.95
        verificationRequired := false } now)
  else if sourceType = "FUND_REPORTS" then
    some (registerSourceType
      { authority := 0.88
        category := "official"
        reliability := 0.92
        timeliness := 0.80
        verificationRequired := false } now)
  else if sourceType = "INDUSTRY_DATABASES" then
    some (registerSourceType
      { authority := 0.80
        category := "industry"
        reliability := 0.85
        timeliness := 0.90
        verificationRequired := true } now)
  else if sourceType = "EXPERT_ANALYSIS" then
    some (registerSourceType
      { authority := 0.75
        category := "analysis"
        reliability := 0.80
        timeliness := 0.85
        verificationRequired := true } now)
  else if sourceType = "FINANCIAL_MEDIA" then
    some (registerSourceType
      { authority := 0.70
        category := "media"
        reliability := 0.75
        timeliness := 0.95
        verificationRequired := true } now)
  else if sourceType = "NEWS_REPORTS" then
    some (registerSourceType
      { authority := 0.60
        category := "news"
        reliability := 0.70
        timeliness := 0.95
        verificationRequired := true } now)
  else if sourceType = "MARKET_RUMORS" then
    some (registerSourceType
      { authority := 0.30
        category := "rumor"
        reliability := 0.40
        timeliness := 0.98
        verificationRequired := true } now)
  else if sourceType = "AI_INFERENCE" then
    some (registerSourceType
      { authority := 0.65
        category := "generated"
        reliability := 0.70
        timeliness := 1.0
        verificationRequired := true } now)
  else none

/-- Embedding of calculateTimeDecay: half-life of 30 days over the age in
days of the registration timestamp (milliseconds). -/
def calculateTimeDecay (now timestamp : ℝ) : ℝ :=
  (0.5 : ℝ) ^ ((now - timestamp) / (1000 * 60 * 60 * 24) / 30)

/-- Embedding of getSourceAuthority: unknown types score the neutral 0.5;
otherwise the base authority, blended 70/30 with the mean of the recent
performance window when non-empty, decayed for categories other than
official and regulatory, clamped to the interval from 0.1 to 0.98. -/
def getSourceAuthority (registry : Registry) (now : ℝ) (sourceType : String) : ℝ :=
  match registry sourceType with
  | none => 0.5
  | some sourceConfig =>
    let authority := sourceConfig.authority
    let authority :=
      if 0 < sourceConfig.recentPerformance.length then
        authority * 0.7 +
          (sourceConfig.recentPerformance.sum / sourceConfig.recentPerformance.length) * 0.3
      else authority
    let authority :=
      if sourceConfig.category ≠ "official" ∧ sourceConfig.category ≠ "regulatory" then
        authority * calculateTimeDecay now sourceConfig.registeredAt
      else authority
    min (max authority 0.1) 0.98

/-- Embedding of updateSourcePerformance: push the outcome score, keep the
last 10, recompute the success rate as the share of scores at least 0.7. -/
def updateSourcePerformance (sourceConfig : SourceConfig) (validationSuccess : Bool)
    (actualAccuracy : Option ℝ) : SourceConfig :=
  let performanceScore :=
    match actualAccuracy with
    | some a => a
    | none => if validationSuccess then (1.0 : ℝ) else 0.0
  let perf := sourceConfig.recentPerformance ++ [performanceScore]
  let perf := if 10 < perf.length then perf.drop 1 else perf
  { sourceConfig with
    validationCount := sourceConfig.validationCount + 1,
    recentPerformance := perf,
    successRate := ((perf.filter (fun p => 0.7 ≤ p)).length : ℝ) / perf.length }

/-- JavaScript ToInt32: wrap an integer into the signed 32-bit range. -/
def toInt32 (x : ℤ) : ℤ := (x + 2 ^ 31) % 2 ^ 32 - 2 ^ 31

/-- One step of the validation-key hash loop:
hash = ((hash << 5) - hash) + charCode, coerced back to 32 bits. -/
def hashStep (hash : ℤ) (c : Char) : ℤ := toInt32 (toInt32 (hash * 32) - hash + c.toNat)

/-- Embedding of generateValidationKey over the serialised claim string. -/
def generateValidationKey (information : String) : String :=
  "validation_" ++ toString (information.toList.foldl hashStep 0).natAbs

/-- One source offered to cross-validation: its type, the caller-supplied
agreement flag and its payload. -/
structure SourceInput (α : Type) where
  type : String
  agreement : Bool
  data : α

/-- An entry of the supporting or conflicting lists of a validation. -/
structure ValInfo (α : Type) where
  source : String
  authority : ℝ
  information : α

/-- The validation result object. -/
structure Validation (α : Type) where
  confidence : ℝ
  sourceCount : Nat
  agreementLevel : ℝ
  conflictingInfo : List (ValInfo α)
  supportingInfo : List (ValInfo α)
  recommendedAuthority : ℝ

/-- The in-process validation cache, keyed by the claim hash. -/
abbrev ValidationCache (α : Type) := List (String × Validation α)

/-- Embedding of crossValidateInformation, threading the cache explicitly.
A single source scores its authority; several sources score the
authority-weighted agreement ratio, boosted by 1.2 (capped at 0.95) when
the ratio exceeds 0.8 and at least 3 sources are present.  With an empty
source list JavaScript would produce NaN (0/0); the claims only concern
non-empty lists, where the model and the code agree. -/
def crossStep {α : Type} (registry : Registry) (now : ℝ)
    (acc : ℝ × ℝ × List (ValInfo α) × List (ValInfo α)) (source : SourceInput α) :
    ℝ × ℝ × List (ValInfo α) × List (ValInfo α) :=
  let authority := getSourceAuthority registry now source.type
  if source.agreement then
    (acc.1 + authority, acc.2.1 + authority,
     acc.2.2.1 ++ [{ source := source.type, authority := authority,
                     information := source.data }],
     acc.2.2.2)
  else
    (acc.1 + authority, acc.2.1, acc.2.2.1,
     acc.2.2.2 ++ [{ source := source.type, authority := authority,
                     information := source.data }])

def crossValidateInformation {α : Type} (registry : Registry) (now : ℝ)
    (cache : ValidationCache α) (information : String)
    (sources : List (SourceInput α)) : Validation α × ValidationCache α :=
  let validationKey := generateValidationKey information
  match cache.lookup validationKey with
  | some v => (v, cache)
  | none =>
    let validation :=
      match sources with
      | [s] =>
        let c := getSourceAuthority registry now s.type
        { confidence := c, sourceCount := 1, agreementLevel := 0,
          conflictingInfo := [], supportingInfo := [], recommendedAuthority := c }
      | _ =>
        let acc := sources.foldl (crossStep registry now) (0, 0, [], [])
        let totalWeight := acc.1
        let weightedAgreement := acc.2.1
        let agreementLevel := weightedAgreement / totalWeight
        let confidence :=
          if 0.8 < agreementLevel ∧ 3 ≤ sources.length then
            min (agreementLevel * 1.2) 0.95
          else agreementLevel
        { confidence := confidence, sourceCount := sources.length,
          agreementLevel := agreementLevel,
          conflictingInfo := acc.2.2.2, supportingInfo := acc.2.2.1,
          recommendedAuthority := totalWeight / sources.length }
    (validation, (validationKey, validation) :: cache)

/-- A graph entity as the inference records carry it: only the id is read. -/
structure Entity where
  id : String
deriving DecidableEq

/-- A source handed to createWeightedRelationship before weighting. -/
structure WSource (α : Type) where
  type : String
  data : α
  timestamp : Option ℝ

/-- A source as stored on a weighted relationship. -/
structure StoredSource (α : Type) where
  type : String
  authority : ℝ
  data : α
  timestamp : ℝ

/-- The derived metadata of a weighted relationship. -/
structure RelMetadata where
  sourceCount : Nat
  averageAuthority : ℝ
  hasOfficialSource : Bool
  hasRegulatorySource : Bool
  requiresVerification : Bool

/-- A weighted relationship (the validatedAt clock stamp is omitted). -/
structure Relationship (α : Type) where
  fromEntity : Entity
  toEntity : Entity
  rtype : String
  confidence : ℝ
  sources : List (StoredSource α)
  metadata : RelMetadata

/-- The category a registry records for a type, if any. -/
def categoryOf (registry : Registry) (t : String) : Option String :=
  (registry t).map (fun c => c.category)

/-- Embedding of createWeightedRelationship: confidence is the mean
authority of the supplied sources capped at 0.95; the metadata flags are
boolean ORs over the source list. -/
def createWeightedRelationship {α : Type} (registry : Registry) (now : ℝ)
    (fromEntity toEntity : Entity) (relationshipType : String)
    (sources : List (WSource α)) : Relationship α :=
  let totalWeight := (sources.map (fun s => getSourceAuthority registry now s.type)).sum
  { fromEntity := fromEntity, toEntity := toEntity, rtype := relationshipType,
    confidence := min (totalWeight / sources.length) 0.95,
    sources := sources.map (fun s =>
      { type := s.type, authority := getSourceAuthority registry now s.type,
        data := s.data, timestamp := s.timestamp.getD now }),
    metadata := {
      sourceCount := sources.length,
      averageAuthority := totalWeight / sources.length,
      hasOfficialSource := sources.any (fun s => categoryOf registry s.type == some "official"),
      hasRegulatorySource := sources.any (fun s => categoryOf registry s.type == some "regulatory"),
      requiresVerification := sources.any (fun s =>
        ((registry s.type).map (fun c => c.verificationRequired)).getD false) } }

/-! ## RelationshipInference (the inference engine)

The store of relationship records is a list; the pattern queries run
against the external store, modelled as a function from query text to the
candidate records it returns.  JSON.stringify of sources and metadata is
modelled by storing the structured values themselves. -/

/-- One entry of the inference-pattern table. -/
structure InferencePattern where
  pattern : String
  minConfidence : ℝ
  description : String
  queryTemplate : String

/-- The CO_INVESTMENT pattern entry. -/
def coInvestmentPattern : InferencePattern where
  pattern := "investment_overlap"
  minConfidence := 0.7
  description := "Entities that frequently invest in similar assets"
  queryTemplate := "MATCH (entity1:Entity)-[:INVESTS_IN]->(asset:Entity)<-[:INVESTS_IN]-(entity2:Entity) WHERE entity1 <> entity2 AND entity1.type CONTAINS \x27Fund\x27 AND entity2.type CONTAINS \x27Fund\x27 RETURN entity1, entity2, count(asset) as overlap_count ORDER BY overlap_count DESC"

/-- The GEOGRAPHIC_CLUSTERING pattern entry. -/
def geographicClusteringPattern : InferencePattern where
  pattern := "geographic_affinity"
  minConfidence := 0.6
  description := "Entities operating in same geographic regions"
  queryTemplate := "MATCH (entity1:Entity), (entity2:Entity) WHERE entity1 <> entity2 AND entity1.country = entity2.country AND entity1.type CONTAINS \x27Fund\x27 AND entity2.type CONTAINS \x27Fund\x27 RETURN entity1, entity2, entity1.country as common_geography"

/-- The SECTOR_ALIGNMENT pattern entry. -/
def sectorAlignmentPattern : InferencePattern where
  pattern := "sector_focus"
  minConfidence := 0.65
  description := "Entities with similar sector focus"
  queryTemplate := "MATCH (entity1:Entity), (entity2:Entity) WHERE entity1 <> entity2 AND entity1.sector = entity2.sector AND entity1.type CONTAINS \x27Fund\x27 AND entity2.type CONTAINS \x27Fund\x27 RETURN entity1, entity2, entity1.sector as common_sector"

/-- The FOLLOW_ON_INVESTMENT pattern entry. -/
def followOnInvestmentPattern : InferencePattern where
  pattern := "sequential_investment"
  minConfidence := 0.8
  description := "One entity often invests after another"
  queryTemplate := "MATCH (leader:Entity)-[r1:INVESTS_IN]->(asset:Entity)<-[r2:INVESTS_IN]-(follower:Entity) WHERE leader <> follower AND r1.created < r2.created RETURN leader, follower, count(*) as follow_count ORDER BY follow_count DESC"

/-- The PEOPLE_NETWORK pattern entry. -/
def peopleNetworkPattern : InferencePattern where
  pattern := "shared_personnel"
  minConfidence := 0.85
  description := "Entities sharing key personnel or board members"
  queryTemplate := "MATCH (person:Entity)-[:WORKS_AT|BOARD_MEMBER]->(entity1:Entity) MATCH (person)-[:WORKS_AT|BOARD_MEMBER]->(entity2:Entity) WHERE entity1 <> entity2 AND person.type = \x27Person\x27 RETURN entity1, entity2, collect(person.name) as shared_people"

/-- The CORPORATE_STRUCTURE pattern entry. -/
def corporateStructurePattern : InferencePattern where
  pattern := "corporate_hierarchy"
  minConfidence := 0.9
  description := "Parent-subsidiary or affiliate relationships"
  queryTemplate := "MATCH (parent:Entity), (subsidiary:Entity) WHERE parent <> subsidiary AND (subsidiary.name CONTAINS parent.name OR parent.name CONTAINS subsidiary.name) AND parent.type CONTAINS \x27Fund\x27 AND subsidiary.type CONTAINS \x27Fund\x27 RETURN parent, subsidiary, \x27name_similarity\x27 as evidence"

/-- The DEAL_COLLABORATION pattern entry. -/
def dealCollaborationPattern : InferencePattern where
  pattern := "transaction_collaboration"
  minConfidence := 0.75
  description := "Entities frequently involved in same transactions"
  queryTemplate := "MATCH (entity1:Entity)-[:PARTICIPATES_IN]->(transaction:Entity)<-[:PARTICIPATES_IN]-(entity2:Entity) WHERE entity1 <> entity2 AND transaction.type = \x27Transaction\x27 RETURN entity1, entity2, count(transaction) as collaboration_count ORDER BY collaboration_count DESC"

/-- Embedding of initializeInferencePatterns, in definition order. -/
def inferencePatterns : List (String × InferencePattern) :=
  [("CO_INVESTMENT", coInvestmentPattern),
   ("GEOGRAPHIC_CLUSTERING", geographicClusteringPattern),
   ("SECTOR_ALIGNMENT", sectorAlignmentPattern),
   ("FOLLOW_ON_INVESTMENT", followOnInvestmentPattern),
   ("PEOPLE_NETWORK", peopleNetworkPattern),
   ("CORPORATE_STRUCTURE", corporateStructurePattern),
   ("DEAL_COLLABORATION", dealCollaborationPattern)]

/-- A candidate row returned by a pattern query; absent columns are none.
Counts are naturals as produced by count() aggregation. -/
structure InfRecord where
  entity1 : Option Entity := none
  entity2 : Option Entity := none
  parent : Option Entity := none
  subsidiary : Option Entity := none
  leader : Option Entity := none
  follower : Option Entity := none
  overlap_count : Option Nat := none
  follow_count : Option Nat := none
  collaboration_count : Option Nat := none
  shared_people : Option (List String) := none
  common_geography : Option String := none
  common_sector : Option String := none

/-- The payload of an AI_INFERENCE source (the clock stamp is omitted). -/
structure InferenceData where
  pattern : String
  evidence : List String
  confidence : ℝ

/-- Embedding of mapPatternToRelationshipType. -/
def mapPatternToRelationshipType (patternName : String) : String :=
  if patternName = "CO_INVESTMENT" then "CO_INVESTED"
  else if patternName = "GEOGRAPHIC_CLUSTERING" then "OPERATES_IN_SAME_REGION"
  else if patternName = "SECTOR_ALIGNMENT" then "FOCUSES_ON_SAME_SECTOR"
  else if patternName = "FOLLOW_ON_INVESTMENT" then "FOLLOWS_INVESTMENT_PATTERN"
  else if patternName = "PEOPLE_NETWORK" then "SHARES_PERSONNEL"
  else if patternName = "CORPORATE_STRUCTURE" then "AFFILIATED_WITH"
  else if patternName = "DEAL_COLLABORATION" then "COLLABORATES_ON_DEALS"
  else "INFERRED_RELATIONSHIP"

/-- Embedding of processRelationshipCandidate: pick the entity pair, apply
the pattern-specific confidence formula (defaulting to the pattern
minimum), package the evidence as a single AI_INFERENCE source and hand it
to createWeightedRelationship.  Interpolating an absent column prints
undefined in JavaScript. -/
def processRelationshipCandidate (registry : Registry) (now : ℝ) (record : InfRecord)
    (patternName : String) (pattern : InferencePattern) :
    Option (Relationship InferenceData) :=
  let entity1 := record.entity1 <|> record.parent <|> record.leader
  let entity2 := record.entity2 <|> record.subsidiary <|> record.follower
  match entity1, entity2 with
  | some e1, some e2 =>
    let ce : ℝ × List String :=
      if patternName = "CO_INVESTMENT" then
        let overlapCount := record.overlap_count.getD 0
        (min 0.95 (0.5 + (overlapCount : ℝ) * 0.1),
         ["Co-invested in " ++ toString overlapCount ++ " assets"])
      else if patternName = "GEOGRAPHIC_CLUSTERING" then
        (0.6, ["Both operate in " ++ record.common_geography.getD "undefined"])
      else if patternName = "SECTOR_ALIGNMENT" then
        (0.65, ["Both focus on " ++ record.common_sector.getD "undefined"])
      else if patternName = "FOLLOW_ON_INVESTMENT" then
        let followCount := record.follow_count.getD 0
        (min 0.9 (0.6 + (followCount : ℝ) * 0.05),
         [toString followCount ++ " follow-on investments observed"])
      else if patternName = "PEOPLE_NETWORK" then
        let sharedPeople := record.shared_people.getD []
        (min 0.95 (0.7 + (sharedPeople.length : ℝ) * 0.05),
         ["Share " ++ toString sharedPeople.length ++ " key personnel"])
      else if patternName = "CORPORATE_STRUCTURE" then
        (0.8, ["Corporate name similarity detected"])
      else if patternName = "DEAL_COLLABORATION" then
        let collabCount := record.collaboration_count.getD 0
        (min 0.9 (0.5 + (collabCount : ℝ) * 0.08),
         ["Collaborated on " ++ toString collabCount ++ " transactions"])
      else (pattern.minConfidence, [])
    some (createWeightedRelationship registry now e1 e2
      (mapPatternToRelationshipType patternName)
      [{ type := "AI_INFERENCE"
         data := { pattern := patternName, evidence := ce.2, confidence := ce.1 }
         timestamp := none }])
  | _, _ => none

/-- The properties object passed to the relationship write queries. -/
structure RelProps where
  confidence : ℝ
  sources : List (StoredSource InferenceData)
  metadata : RelMetadata
  inferenceType : String

/-- A relationship record in the graph store. -/
structure StoredRel where
  fromId : String
  toId : String
  rtype : String
  confidence : ℝ
  weight : ℝ
  sources : List (StoredSource InferenceData)
  metadata : RelMetadata
  inferenceType : String

/-- Directed key test: the MERGE pattern of createRelationship. -/
def relMatchDirected (r : StoredRel) (fromId toId rtype : String) : Bool :=
  r.fromId == fromId && r.toId == toId && r.rtype == rtype

/-- Undirected key test: the existence and update queries of the inference
engine match the pair in either direction with the given type. -/
def relMatchUndirected (r : StoredRel) (fromId toId rtype : String) : Bool :=
  r.rtype == rtype &&
    ((r.fromId == fromId && r.toId == toId) || (r.fromId == toId && r.toId == fromId))

/-- Metadata of a freshly merged record before SET += assigns it. -/
def emptyRelMetadata : RelMetadata :=
  { sourceCount := 0, averageAuthority := 0, hasOfficialSource := false,
    hasRegulatorySource := false, requiresVerification := false }

/-- Embedding of GraphDatabase.createRelationship (the MERGE write query):
on a directed match, ON MATCH keeps the larger confidence, but the
following SET r += properties overwrites confidence with the incoming
value anyway; on create, ON CREATE seeds confidence (0 is falsy, giving
0.5) and weight, and SET r += properties then assigns the property map. -/
def gdbCreateRelationship (st : List StoredRel) (fromId toId relationshipType : String)
    (props : RelProps) : List StoredRel :=
  if st.any (fun r => relMatchDirected r fromId toId relationshipType) then
    st.map (fun r =>
      if relMatchDirected r fromId toId relationshipType then
        let afterCase := { r with
          confidence := if r.confidence < props.confidence then props.confidence
                        else r.confidence }
        { afterCase with
          confidence := props.confidence
          sources := props.sources
          metadata := props.metadata
          inferenceType := props.inferenceType }
      else r)
  else
    let created : StoredRel :=
      { fromId := fromId
        toId := toId
        rtype := relationshipType
        confidence := if props.confidence = 0 then 0.5 else props.confidence
        weight := 1.0
        sources := []
        metadata := emptyRelMetadata
        inferenceType := "" }
    let afterPlus := { created with
      confidence := props.confidence
      sources := props.sources
      metadata := props.metadata
      inferenceType := props.inferenceType }
    st ++ [afterPlus]

/-- Embedding of updateRelationshipConfidence: the update query SETs the
new confidence, sources and metadata on every record matching the pair
(either direction) with the same type. -/
def updateRelationshipConfidence (st : List StoredRel)
    (newRelationship : Relationship InferenceData) : List StoredRel :=
  st.map (fun r =>
    if relMatchUndirected r newRelationship.fromEntity.id newRelationship.toEntity.id
        newRelationship.rtype then
      { r with
        confidence := newRelationship.confidence
        sources := newRelationship.sources
        metadata := newRelationship.metadata }
    else r)

/-- Embedding of createInferredRelationship: look for an existing
relationship of the same type between the pair (either direction); if one
exists, update it only when the new confidence is strictly greater,
otherwise create the relationship through the MERGE write. -/
def createInferredRelationship (st : List StoredRel)
    (relationship : Relationship InferenceData) : List StoredRel :=
  let existing := st.filter (fun r =>
    relMatchUndirected r relationship.fromEntity.id relationship.toEntity.id
      relationship.rtype)
  match existing with
  | existingRel :: _ =>
    if existingRel.confidence < relationship.confidence then
      updateRelationshipConfidence st relationship
    else st
  | [] =>
    gdbCreateRelationship st relationship.fromEntity.id relationship.toEntity.id
      relationship.rtype
      { confidence := relationship.confidence, sources := relationship.sources,
        metadata := relationship.metadata, inferenceType := "pattern_based" }

/-- The per-pattern result object of inferRelationshipsByPattern. -/
structure PatternResult where
  pattern : String
  candidates : List InfRecord
  successful : Nat
  failed : Nat
  relationships : List (Relationship InferenceData)

/-- The per-candidate loop body of inferRelationshipsByPattern. -/
def inferStep (registry : Registry) (now : ℝ) (patternName : String)
    (pattern : InferencePattern) (acc : PatternResult × List StoredRel)
    (record : InfRecord) : PatternResult × List StoredRel :=
  match processRelationshipCandidate registry now record patternName pattern with
  | some relationship =>
    if pattern.minConfidence ≤ relationship.confidence then
      ({ acc.1 with
          successful := acc.1.successful + 1
          relationships := acc.1.relationships ++ [relationship] },
       createInferredRelationship acc.2 relationship)
    else ({ acc.1 with failed := acc.1.failed + 1 }, acc.2)
  | none => ({ acc.1 with failed := acc.1.failed + 1 }, acc.2)

/-- Embedding of inferRelationshipsByPattern: an unknown pattern name
throws (none); otherwise every candidate from the pattern query is scored,
persisted when its confidence reaches the pattern minimum, and counted
successful or failed. -/
def inferRelationshipsByPattern (registry : Registry) (now : ℝ)
    (queryExec : String → List InfRecord) (patternName : String)
    (st : List StoredRel) : Option (PatternResult × List StoredRel) :=
  match inferencePatterns.lookup patternName with
  | none => none
  | some pattern =>
    let records := queryExec pattern.queryTemplate
    some (records.foldl (inferStep registry now patternName pattern)
      ({ pattern := patternName, candidates := records, successful := 0, failed := 0,
         relationships := [] }, st))

/-! Predicates for the store invariants of claim C2. -/

/-- Two records target the same unordered pair with the same type. -/
def sameUndirKey (a b : StoredRel) : Prop :=
  a.rtype = b.rtype ∧
    ((a.fromId = b.fromId ∧ a.toId = b.toId) ∨ (a.fromId = b.toId ∧ a.toId = b.fromId))

/-- Two records carry the same directed (from, to, type) triple. -/
def sameTriple (a b : StoredRel) : Prop :=
  a.fromId = b.fromId ∧ a.toId = b.toId ∧ a.rtype = b.rtype

/-- Store well-formedness: no two records share an unordered pair and
type.  This holds for every store reachable from the empty store through
the operations above. -/
def RelStoreOk (st : List StoredRel) : Prop :=
  st.Pairwise (fun a b => ¬ sameUndirKey a b)

/-! Concrete fixtures for the inference witnesses. -/

/-- The registry as initialised at a registration instant of 0. -/
def reg0 : Registry := initializeSourceAuthority 0

/-- A co-investment candidate row with exactly 4 overlapping assets. -/
def coRecord : InfRecord :=
  { entity1 := some { id := "fundA" }, entity2 := some { id := "fundB" },
    overlap_count := some 4 }

/-- The relationship the pipeline produces for coRecord. -/
def coRel : Relationship InferenceData :=
  createWeightedRelationship reg0 0 { id := "fundA" } { id := "fundB" } "CO_INVESTED"
    [{ type := "AI_INFERENCE"
       data := { pattern := "CO_INVESTMENT"
                 evidence := ["Co-invested in " ++ toString (4 : Nat) ++ " assets"]
                 confidence := min 0.95 (0.5 + ((4 : Nat) : ℝ) * 0.1) }
       timestamp := none }]

/-- An agreeing industry-database source for the validation witnesses. -/
def industrySource : SourceInput Unit :=
  { type := "INDUSTRY_DATABASES", agreement := true, data := () }

/-- An agreeing news source for the caching witness. -/
def newsSource : SourceInput Unit :=
  { type := "NEWS_REPORTS", agreement := true, data := () }

end


/-! ## EntityExtractor (agent/core/QueryEngine.js, class EntityExtractor)

The extraction patterns are JavaScript regular expressions; they are
embedded as abstract syntax trees over character classes and matched by a
backtracking engine that enumerates candidate matches in the greedy
backtracking order of the JavaScript engine.  Only capture group 1 is
tagged, because the extractor reads match[1] and match[0] only; the other
parenthesised groups of the source patterns are embedded untagged.  The
fuel argument bounds the recursion depth; every recursive call decreases
it by one, and along any call chain each step either descends the syntax
tree or advances the position (star bodies must consume input, as in the
JavaScript engine), so a fuel of (size + 2) * (length + 2) is never
exhausted. -/

/-- Regex syntax: character classes, sequencing, alternation, greedy star,
greedy option, the capturing group 1, word boundary and lookahead. -/
inductive RE where
  | eps : RE
  | cls : (Char → Bool) → RE
  | seq : RE → RE → RE
  | alt : RE → RE → RE
  | star : RE → RE
  | opt : RE → RE
  | group : RE → RE
  | wb : RE
  | look : RE → RE

/-- Syntactic size, used only to pick a sufficient fuel. -/
def reSize : RE → Nat
  | .eps => 1
  | .cls _ => 1
  | .seq a b => reSize a + reSize b + 1
  | .alt a b => reSize a + reSize b + 1
  | .star a => reSize a + 1
  | .opt a => reSize a + 1
  | .group a => reSize a + 1
  | .wb => 1
  | .look a => reSize a + 1

/-- JavaScript word character for the word-boundary assertion. -/
def isWordChar (c : Char) : Bool := c.isAlphanum || c == '_'

/-- Whether the character at a position exists and is a word character. -/
def charAtWord (s : List Char) (i : Nat) : Bool :=
  match s[i]? with
  | some c => isWordChar c
  | none => false

/-- The word-boundary test of the JavaScript engine. -/
def isWB (s : List Char) (i : Nat) : Bool :=
  (if i = 0 then false else charAtWord s (i - 1)) != charAtWord s i

/-- All candidate matches of a regex at a fixed position, as pairs of end
position and group-1 span, in greedy backtracking order; the JavaScript
match is the head. -/
def runRE (s : List Char) : Nat → RE → Nat → List (Nat × Option (Nat × Nat))
  | 0, _, _ => []
  | fuel + 1, re, i =>
    match re with
    | .eps => [(i, none)]
    | .cls f =>
      match s[i]? with
      | some c => if f c then [(i + 1, none)] else []
      | none => []
    | .seq a b =>
      (runRE s fuel a i).flatMap (fun x =>
        (runRE s fuel b x.1).map (fun y => (y.1, y.2 <|> x.2)))
    | .alt a b => runRE s fuel a i ++ runRE s fuel b i
    | .star a =>
      ((runRE s fuel a i).flatMap (fun x =>
        if i < x.1 then
          (runRE s fuel (.star a) x.1).map (fun y => (y.1, y.2 <|> x.2))
        else [])) ++ [(i, none)]
    | .opt a => runRE s fuel a i ++ [(i, none)]
    | .group a => (runRE s fuel a i).map (fun x => (x.1, some (i, x.1)))
    | .wb => if isWB s i then [(i, none)] else []
    | .look a => if (runRE s fuel a i).isEmpty then [] else [(i, none)]

/-- Fuel that the bounded engine never exhausts (see the section note). -/
def bigFuel (s : List Char) (re : RE) : Nat := (reSize re + 2) * (s.length + 2)

/-- Leftmost match at or after a position: (start, end, group-1 span). -/
def reFirstAux (s : List Char) (re : RE) (fuel : Nat) :
    Nat → Nat → Option (Nat × Nat × Option (Nat × Nat))
  | 0, _ => none
  | rem + 1, i =>
    match (runRE s fuel re i).head? with
    | some x => some (i, x.1, x.2)
    | none => reFirstAux s re fuel rem (i + 1)

/-- The successive non-overlapping matches of the g-flagged matchAll loop:
search from the last end position, advancing by one after an empty match. -/
def reMatchAllAux (s : List Char) (re : RE) (fuel : Nat) :
    Nat → Nat → List (Nat × Nat × Option (Nat × Nat))
  | 0, _ => []
  | rem + 1, i =>
    match reFirstAux s re fuel (s.length + 1 - i) i with
    | none => []
    | some m =>
      m :: reMatchAllAux s re fuel rem (if m.2.1 = m.1 then m.2.1 + 1 else m.2.1)

/-- message.matchAll(pattern) as a list of match descriptors. -/
def reMatchAll (s : List Char) (re : RE) : List (Nat × Nat × Option (Nat × Nat)) :=
  reMatchAllAux s re (bigFuel s re) (s.length + 1) 0

/-- The substring of the character list between two positions. -/
def subStr (s : List Char) (a b : Nat) : String := String.mk ((s.drop a).take (b - a))

/-- (match[1] || match[0]): the group-1 text when it participated and is
non-empty, the full match text otherwise. -/
def matchText (s : List Char) (m : Nat × Nat × Option (Nat × Nat)) : String :=
  match m.2.2 with
  | some g =>
    let g1 := subStr s g.1 g.2
    if g1 = "" then subStr s m.1 m.2.1 else g1
  | none => subStr s m.1 m.2.1

/-- String.trim over the ASCII whitespace class, list-based. -/
def trimStr (t : String) : String :=
  String.mk (((t.toList.dropWhile isWsJS).reverse.dropWhile isWsJS).reverse)

/-! The regular expressions of the extractor, as syntax trees.  Classes
under the i flag are case-insensitive: [A-Z] and [a-z] both become the
letter class, and literals compare lowercased. -/

/-- Single case-sensitive character. -/
def chr (c : Char) : RE := .cls (fun x => x == c)

/-- Single case-insensitive character. -/
def chrI (c : Char) : RE := .cls (fun x => x.toLower == c.toLower)

/-- Case-sensitive literal word. -/
def strCS (w : String) : RE := w.toList.foldr (fun c r => .seq (chr c) r) .eps

/-- Case-insensitive literal word. -/
def strCI (w : String) : RE := w.toList.foldr (fun c r => .seq (chrI c) r) .eps

/-- Case-insensitive alternation of literal words, in source order. -/
def oneOfCI (ws : List String) : RE :=
  match ws with
  | [] => .cls (fun _ => false)
  | w :: rest => rest.foldl (fun r w2 => .alt r (strCI w2)) (strCI w)

/-- One-or-more repetition. -/
def plusRE (r : RE) : RE := .seq r (.star r)

def digitRE : RE := .cls Char.isDigit

def wsClsRE : RE := .cls isWsJS

def wsPlusRE : RE := plusRE wsClsRE

def wsStarRE : RE := .star wsClsRE

/-- [A-Z] or [a-z] under the i flag. -/
def alphaRE : RE := .cls Char.isAlpha

/-- [A-Z] case-sensitive. -/
def upperRE : RE := .cls (fun c => 'A' ≤ c && c ≤ 'Z')

/-- [a-zA-Z0-9]. -/
def alnumRE : RE := .cls Char.isAlphanum

/-- [0-9,]. -/
def digitCommaRE : RE := .cls isDigitComma

/-- ([0-9,]+(?:\.[0-9]+)?), shared by the two amount patterns. -/
def amountNumRE : RE :=
  .seq (plusRE digitCommaRE) (.opt (.seq (chr '.') (plusRE digitRE)))

/-- 20[0-9]{2}. -/
def yearRE : RE := .seq (chr '2') (.seq (chr '0') (.seq digitRE digitRE))

/-- [A-Z][a-zA-Z0-9]*(?:\s+[A-Z][a-zA-Z0-9]*)* (case-sensitive). -/
def companyNameCS : RE :=
  .seq upperRE (.seq (.star alnumRE)
    (.star (.seq wsPlusRE (.seq upperRE (.star alnumRE)))))

/-- The company-suffix alternation of the first company pattern. -/
def companySuffixRE : RE :=
  .alt (strCS "Capital") (.alt (strCS "Ventures") (.alt (strCS "Partners")
    (.alt (strCS "Fund") (.alt (strCS "Management")
      (.alt (.seq (strCS "Investment") (.opt (chr 's')))
        (.alt (strCS "Group") (.alt (.seq (strCS "Holding") (.opt (chr 's')))
          (.alt (.seq (strCS "Corp") (.opt (chr '.')))
            (.alt (.seq (strCS "Inc") (.opt (chr '.'))) (strCS "LLC"))))))))))

/-- Company pattern 1 (g flag, case-sensitive). -/
def companiesRE1 : RE :=
  .seq .wb (.seq (.group companyNameCS)
    (.seq wsPlusRE (.seq companySuffixRE .wb)))

/-- [A-Z][a-zA-Z]*(?:\s+[A-Z][a-zA-Z]*)* under the i flag. -/
def companyNameCI : RE :=
  .seq alphaRE (.seq (.star alphaRE)
    (.star (.seq wsPlusRE (.seq alphaRE (.star alphaRE)))))

/-- Company pattern 2 (gi). -/
def companiesRE2 : RE :=
  .seq .wb (.seq (.group companyNameCI)
    (.seq (.opt (chr ',')) (.seq wsPlusRE
      (.seq (.opt (oneOfCI ["a", "an", "the"]))
        (.seq wsStarRE
          (oneOfCI ["venture capital", "private equity", "investment", "fund"]))))))

/-- Company pattern 3 (gi): well-known single-word firms. -/
def companiesRE3 : RE :=
  .seq .wb (.seq (.group (oneOfCI
    ["Blackstone", "KKR", "Apollo", "Carlyle", "Bain", "TPG", "Warburg",
     "Kohlberg", "Kravis", "Roberts", "Sequoia", "Andreessen", "Horowitz"])) .wb)

/-- Company pattern 4 (gi): well-known multi-word firms. -/
def companiesRE4 : RE :=
  .seq .wb (.seq (.group (oneOfCI
    ["Blackstone Group", "Apollo Global", "Carlyle Group", "Bain Capital",
     "TPG Capital", "Warburg Pincus", "Silver Lake", "Vista Equity",
     "General Atlantic", "Advent International"])) .wb)

/-- [A-Z][a-z]+ under the i flag: a capitalised word. -/
def personWordRE : RE := .seq alphaRE (plusRE alphaRE)

/-- Two or three such words separated by whitespace. -/
def personNameRE : RE :=
  .seq personWordRE (.seq wsPlusRE
    (.seq personWordRE (.opt (.seq wsPlusRE personWordRE))))

/-- The role keywords of both people patterns. -/
def personRoleRE : RE :=
  oneOfCI ["partner", "managing", "founder", "CEO", "CTO", "VP", "director"]

/-- People pattern 1 (gi): name followed (lookahead) by a role. -/
def peopleRE1 : RE :=
  .seq .wb (.seq (.group personNameRE)
    (.seq .wb (.look (.seq wsPlusRE personRoleRE))))

/-- People pattern 2 (gi): role followed by a name. -/
def peopleRE2 : RE := .seq personRoleRE (.seq wsPlusRE (.group personNameRE))

/-- Amount pattern 1 (gi): dollar sign, number, optional M, B or T. -/
def amountsRE1 : RE :=
  .seq (chr '$') (.seq (.group amountNumRE) (.seq wsStarRE
    (.opt (.cls (fun c => c == 'M' || c == 'm' || c == 'B' || c == 'b' ||
      c == 'T' || c == 't')))))

/-- Amount pattern 2 (gi): number followed by a scale word. -/
def amountsRE2 : RE :=
  .seq (.group amountNumRE) (.seq wsStarRE
    (oneOfCI ["million", "billion", "trillion"]))

/-- Timeframe pattern 1 (gi). -/
def timeframesRE1 : RE :=
  .seq (oneOfCI ["last", "past", "since", "during", "in", "from"])
    (.seq wsPlusRE (.seq (.group (plusRE digitRE))
      (.seq wsPlusRE
        (.alt (.seq (strCI "year") (.opt (chrI 's')))
          (.alt (.seq (strCI "month") (.opt (chrI 's')))
            (.seq (strCI "quarter") (.opt (chrI 's'))))))))

/-- Timeframe pattern 2 (g, case-sensitive): a year or a year range. -/
def timeframesRE2 : RE :=
  .seq (.group yearRE)
    (.opt (.seq wsStarRE (.seq (.cls (fun c => c == '-' || c == '–'))
      (.seq wsStarRE yearRE))))

/-- Timeframe pattern 3 (gi): a quarter such as Q3 2024. -/
def timeframesRE3 : RE :=
  .seq .wb (.seq (.group (.seq (chrI 'Q')
    (.seq (.cls (fun c => '1' ≤ c && c ≤ '4')) (.seq wsPlusRE yearRE)))) .wb)

/-- The sector keyword pattern (gi). -/
def sectorsRE1 : RE :=
  .seq .wb (.seq (.group (oneOfCI
    ["technology", "enterprise software", "fintech", "biotech", "healthcare",
     "real estate", "infrastructure", "energy", "consumer", "SaaS",
     "artificial intelligence", "machine learning", "blockchain",
     "cryptocurrency", "tech"])) .wb)

/-- The geography keyword pattern (gi). -/
def geographiesRE1 : RE :=
  .seq .wb (.seq (.group (oneOfCI
    ["Silicon Valley", "San Francisco", "New York", "Boston", "London",
     "Europe", "Asia", "China", "India", "US", "USA", "United States"])) .wb)

/-- Metric pattern 1 (gi): metric keywords. -/
def metricsRE1 : RE :=
  .seq .wb (.seq (.group (oneOfCI
    ["IRR", "multiple", "TVPI", "DPI", "RVPI", "PME", "success rate",
     "hit rate"])) .wb)

/-- Metric pattern 2 (gi): a multiple such as 2.5x multiple. -/
def metricsRE2 : RE :=
  .seq (.group (.seq (plusRE digitRE)
    (.seq (.opt (.seq (chr '.') (plusRE digitRE))) (chrI 'x'))))
    (.seq wsStarRE (oneOfCI ["multiple", "return"]))

/-- Metric pattern 3 (gi): a percentage IRR or return. -/
def metricsRE3 : RE :=
  .seq (.group (.seq (plusRE digitRE) (.opt (.seq (chr '.') (plusRE digitRE)))))
    (.seq (chr '%') (.seq wsStarRE (oneOfCI ["IRR", "return"])))

/-- One category of the entityPatterns table. -/
structure EntityCategory where
  patterns : List RE
  ctype : String

/-- The entityPatterns table of the extractor, in source order. -/
def entityPatternTable : List (String × EntityCategory) :=
  [("companies", { patterns := [companiesRE1, companiesRE2, companiesRE3, companiesRE4]
                   ctype := "company" }),
   ("people", { patterns := [peopleRE1, peopleRE2], ctype := "person" }),
   ("amounts", { patterns := [amountsRE1, amountsRE2], ctype := "amount" }),
   ("timeframes", { patterns := [timeframesRE1, timeframesRE2, timeframesRE3]
                    ctype := "timeframe" }),
   ("sectors", { patterns := [sectorsRE1], ctype := "sector" }),
   ("geographies", { patterns := [geographiesRE1], ctype := "geography" }),
   ("metrics", { patterns := [metricsRE1, metricsRE2, metricsRE3], ctype := "metric" })]

/-- One extracted entity span. -/
structure ExtractedEntity where
  text : String
  etype : String
  position : Nat
  confidence : ℚ
deriving DecidableEq

/-- The extraction result: per-category entity lists plus the overall
confidence. -/
structure ExtractResult where
  entities : List (String × List ExtractedEntity)
  confidence : ℚ

/-- The inner loop body of extract over one pattern of a category: count
the pattern, count it again as matched when it has a match, and append
each match whose trimmed text is new to the category (dedup by text). -/
def entityFoldStep (s : List Char) (ctype : String)
    (a : List ExtractedEntity × Nat × Nat) (re : RE) :
    List ExtractedEntity × Nat × Nat :=
  let ms := reMatchAll s re
  let tp := a.2.2 + 1
  let tm := if ms.isEmpty then a.2.1 else a.2.1 + 1
  let lst := ms.foldl (fun lst m =>
    let entityText := trimStr (matchText s m)
    if entityText != "" && !(lst.any (fun e => e.text == entityText)) then
      lst ++ [{ text := entityText, etype := ctype, position := m.1,
                confidence := 0.8 }]
    else lst) a.1
  (lst, tm, tp)

/-- The outer loop body of extract over one category. -/
def categoryFoldStep (s : List Char)
    (acc : List (String × List ExtractedEntity) × Nat × Nat)
    (cat : String × EntityCategory) :
    List (String × List ExtractedEntity) × Nat × Nat :=
  let inner := cat.2.patterns.foldl (entityFoldStep s cat.2.ctype)
    ([], acc.2.1, acc.2.2)
  (acc.1 ++ [(cat.1, inner.1)], inner.2)

/-- Embedding of EntityExtractor.extract: apply every pattern of every
category, and set the overall confidence to the number of patterns with at
least one match over the number of patterns attempted. -/
def extract (message : String) : ExtractResult :=
  let s := message.toList
  let folded := entityPatternTable.foldl (categoryFoldStep s) ([], 0, 0)
  { entities := folded.1
    confidence := if 0 < folded.2.2 then (folded.2.1 : ℚ) / folded.2.2 else 0 }

/-- The number of patterns attempted by one extraction. -/
def totalPatternCount : Nat :=
  (entityPatternTable.map (fun cat => cat.2.patterns.length)).sum

/-- The number of patterns with at least one match on the message. -/
def patternsMatched (message : String) : Nat :=
  (entityPatternTable.map (fun cat =>
    (cat.2.patterns.filter
      (fun re => !(reMatchAll message.toList re).isEmpty)).length)).sum

/-- The number of categories with at least one match on the message. -/
def categoriesWithMatch (message : String) : Nat :=
  (entityPatternTable.filter (fun cat =>
    cat.2.patterns.any (fun re => !(reMatchAll message.toList re).isEmpty))).length

/-- The overall extraction confidence exactly as the specification
sentence words it: categories with at least one match over patterns
attempted.  Stated for comparison with extract, which is translated from
the code. -/
def claimConfidence (message : String) : ℚ :=
  (categoriesWithMatch message : ℚ) / (totalPatternCount : ℚ)


/-- A concrete store for the executor witness: one healthy query, every
other query throws. -/
def storeStub : QueryData → Except String StoreResult := fun q =>
  if q.cypher = "good" then Except.ok { records := some ["row1"] } else Except.error "boom"

/-- A concrete two-query plan for the executor witness. -/
def planStub : List (String × QueryData) :=
  [("healthy", { cypher := "good", parameters := [] }),
   ("broken", { cypher := "bad", parameters := [] })]

/-- Concrete orchestrator stages whose NLU stage throws, for the witness. -/
def depsStub : AgentDeps Unit Unit Unit Unit Unit where
  getContextForTurn := fun _ => Except.ok none
  processMessage := fun _ _ => Except.error { message := "boom", code := none }
  executeQuery := fun _ _ => Except.ok ()
  generateResponse := fun _ _ _ => Except.ok ()
  addTurn := fun _ _ _ _ _ => Except.ok ()
  queryError := fun _ => false
  respConversationId := fun _ => "conv"

end KS

/-! ## Theorems -/

namespace KS

/-- Folding an add-constant-if step equals the start plus the constant
times the number of hits. -/
theorem foldl_add_if_countP (p : String → Bool) (q : ℚ) :
    ∀ (l : List String) (a : ℚ),
      l.foldl (fun acc e => if p e then acc + q else acc) a = a + q * l.countP p := by
  intro l
  induction l with
  | nil => intro a; simp
  | cons x xs ih =>
    intro a
    by_cases h : p x
    · simp [List.foldl_cons, List.countP_cons, h, ih]
      ring
    · simp [List.foldl_cons, List.countP_cons, h, ih]

/-- C8 counterexample: with a previous context whose entity stack is empty
but whose topic flow contains a topic repeated in the new message, the code
returns the fixed 0.3 while the formula stated by the claim gives 0.2. -/
theorem calculateRelevance_ne_claim :
    calculateRelevance "technology trends" (some ⟨[], ["technology"]⟩) = 0.3 ∧
    relevanceClaim "technology trends" (some ⟨[], ["technology"]⟩) = 0.2 ∧
    calculateRelevance "technology trends" (some ⟨[], ["technology"]⟩) ≠
      relevanceClaim "technology trends" (some ⟨[], ["technology"]⟩) := by
  have hj : jsIncludes (lowerStr "technology trends") (lowerStr "technology") = true := by
    decide
  have h1 : calculateRelevance "technology trends" (some ⟨[], ["technology"]⟩) = 0.3 := by
    simp [calculateRelevance]
  have h2 : relevanceClaim "technology trends" (some ⟨[], ["technology"]⟩) = 0.2 := by
    simp only [relevanceClaim, lastN]
    norm_num [hj]
  exact ⟨h1, h2, by rw [h1, h2]; norm_num⟩

/-- C8 (amended): with no previous context, or a previous context whose
entity stack is empty, the relevance is the fixed 0.3; with a non-empty
entity stack it is 0.3 per matched entity among the last three plus 0.2
per matched topic among the last two, capped at 1. -/
theorem calculateRelevance_formula (message : String) (pc : PrevContext) :
    calculateRelevance message none = 0.3 ∧
    (pc.entityStack = [] → calculateRelevance message (some pc) = 0.3) ∧
    (pc.entityStack ≠ [] →
      calculateRelevance message (some pc) =
        min (0.3 * ((lastN 3 pc.entityStack).countP
              (fun e => jsIncludes (lowerStr message) (lowerStr e)) : ℚ)
           + 0.2 * ((lastN 2 pc.topicFlow).countP
              (fun t => jsIncludes (lowerStr message) (lowerStr t)) : ℚ)) 1) := by
  refine ⟨rfl, ?_, ?_⟩
  · intro h
    simp [calculateRelevance, h]
  · intro h
    have hlen : ¬ pc.entityStack.length = 0 := by
      simpa [List.length_eq_zero] using h
    by_cases ht : pc.topicFlow.length > 0
    · simp only [calculateRelevance, hlen, if_false, ht, if_true,
        foldl_add_if_countP]
      ring_nf
    · have ht0 : pc.topicFlow = [] := by
        simpa [List.length_eq_zero] using Nat.eq_zero_of_not_pos ht
      simp only [calculateRelevance, hlen, if_false, ht, if_false,
        foldl_add_if_countP, ht0]
      simp [lastN]

/-- takeWhile over an append whose left part satisfies the predicate. -/
theorem takeWhile_app (p : Char → Bool) :
    ∀ (l t : List Char), (∀ c ∈ l, p c = true) →
      List.takeWhile p (l ++ t) = l ++ List.takeWhile p t := by
  intro l
  induction l with
  | nil => simp
  | cons a as ih =>
    intro t h
    simp [List.takeWhile_cons, h a (List.mem_cons_self a as),
      ih t (fun c hc => h c (List.mem_cons_of_mem a hc))]

/-- takeWhile of a list all of whose members satisfy the predicate. -/
theorem takeWhile_all (p : Char → Bool) (l : List Char) (h : ∀ c ∈ l, p c = true) :
    List.takeWhile p l = l := by
  have := takeWhile_app p l [] h
  simpa using this

/-- C9 counterexample: the input consisting of a single comma matches the
amount pattern with an all-comma numeric token, parseFloat of the empty
string is NaN, and NaN (not 0) is returned. -/
theorem parseAmount_comma_NaN :
    parseAmount "," = none ∧ parseAmount "," ≠ some 0 :=
  ⟨by decide, by decide⟩

/-- C9 (amended): parseAmount never throws (it is a total function); an
input with no digit-or-comma character yields 0; a digit literal with an
optional case-insensitive M, B or T suffix parses to the value scaled by
10^6, 10^9 or 10^12; but an input whose matched numeric token has no digit
(only commas) yields NaN rather than 0. -/
theorem parseAmount_ok :
    (∀ s : String, (∀ c ∈ s.toList, isDigitComma c = false) → parseAmount s = some 0) ∧
    (∀ ds : List Char, ds ≠ [] → (∀ c ∈ ds, c.isDigit = true) →
      (parseAmount (String.mk ds) = some ((digitsToNat ds : ℚ)) ∧
       ∀ u : Char, ∀ mu : ℚ,
         (u, mu) ∈ [('M', (1000000 : ℚ)), ('m', 1000000), ('B', 1000000000),
           ('b', 1000000000), ('T', 1000000000000), ('t', 1000000000000)] →
         parseAmount (String.mk (ds ++ [u])) = some ((digitsToNat ds : ℚ) * mu))) := by
  constructor
  · intro s hs
    have hfind : s.data.findIdx? isDigitComma = none := by
      rw [List.findIdx?_eq_none_iff]
      simpa [String.toList] using hs
    simp [parseAmount, String.toList, hfind]
  · intro ds hne hd
    obtain ⟨d, ds2, rfl⟩ := List.exists_cons_of_ne_nil hne
    have hdall : ∀ c ∈ d :: ds2, isDigitComma c = true := by
      intro c hc
      simp [isDigitComma, hd c hc]
    have hhead : isDigitComma d = true := hdall d (List.mem_cons_self d ds2)
    have hfloat : parseFloatJS (d :: ds2) = some ((digitsToNat (d :: ds2) : ℚ)) := by
      have hint : List.takeWhile Char.isDigit (d :: ds2) = d :: ds2 :=
        takeWhile_all _ _ hd
      simp only [parseFloatJS, hint, List.drop_length]
      simp [digitsToNat]
    have hfilter : List.filter (fun c => !(c == ',')) (d :: ds2) = d :: ds2 := by
      rw [List.filter_eq_self]
      intro c hc
      have hcd := hd c hc
      have : ¬ c = ',' := by
        intro hcc
        rw [hcc] at hcd
        exact absurd hcd (by decide)
      simp [this]
    have hscan : ∀ t : List Char,
        (∀ c, t.head? = some c → isDigitComma c = false ∧ c ≠ '.') →
        amountNumTok ((d :: ds2) ++ t) 0 = (d :: ds2, t) := by
      intro t ht
      have htake : List.takeWhile isDigitComma ((d :: ds2) ++ t) = d :: ds2 := by
        rw [takeWhile_app _ _ _ hdall]
        cases t with
        | nil => simp
        | cons c cs =>
          have := (ht c rfl).1
          simp [List.takeWhile_cons, this]
      have hdrop : List.drop (0 + (d :: ds2).length) ((d :: ds2) ++ t) = t := by
        simp [List.drop_left]
      simp only [amountNumTok, List.drop_zero, htake, hdrop]
      cases t with
      | nil => rfl
      | cons c cs =>
        have hcd := (ht c rfl).2
        cases c with
        | mk v =>
          split
          · rename_i heq
            exact absurd (List.head_eq_of_cons_eq heq) hcd
          · rfl
    have hfind : ∀ t : List Char,
        ((d :: ds2) ++ t).findIdx? isDigitComma = some 0 := by
      intro t
      simp [List.findIdx?_cons, hhead]
    constructor
    · have htl : (String.mk (d :: ds2)).toList = d :: ds2 := rfl
      have hscan0 := hscan [] (by intro c hc; cases hc)
      have hfind0 := hfind []
      rw [List.append_nil] at hscan0 hfind0
      simp only [parseAmount, htl, hfind0, hscan0]
      simp [amountUnit, applyUnit, hfilter, hfloat]
    · intro u mu hmem
      have huem : (u = 'M' ∧ mu = 1000000) ∨ (u = 'm' ∧ mu = 1000000) ∨
          (u = 'B' ∧ mu = 1000000000) ∨ (u = 'b' ∧ mu = 1000000000) ∨
          (u = 'T' ∧ mu = 1000000000000) ∨ (u = 't' ∧ mu = 1000000000000) := by
        simpa [Prod.ext_iff] using hmem
      have hchar : isDigitComma u = false ∧ u ≠ '.' ∧ isWsJS u = false := by
        rcases huem with ⟨rfl, _⟩|⟨rfl, _⟩|⟨rfl, _⟩|⟨rfl, _⟩|⟨rfl, _⟩|⟨rfl, _⟩ <;>
          exact ⟨by decide, by decide, by decide⟩
      have htl : (String.mk ((d :: ds2) ++ [u])).toList = (d :: ds2) ++ [u] := rfl
      have hscan1 := hscan [u] (by
        intro c hc
        cases hc
        exact ⟨hchar.1, hchar.2.1⟩)
      have hunit : amountUnit [u] =
          if u == 'M' || u == 'm' || u == 'B' || u == 'b' || u == 'T' || u == 't' then
            some u.toUpper
          else none := by
        simp [amountUnit, List.dropWhile_cons, hchar.2.2]
      simp only [parseAmount, htl, hfind [u], hscan1, hunit, hfilter, hfloat]
      rcases huem with ⟨rfl, rfl⟩|⟨rfl, rfl⟩|⟨rfl, rfl⟩|⟨rfl, rfl⟩|⟨rfl, rfl⟩|⟨rfl, rfl⟩ <;>
        simp [applyUnit]

/-- Witness for parseAmount_ok at concrete inputs. -/
theorem parseAmount_ok_witness :
    parseAmount "xyz" = some 0 ∧ parseAmount "75" = some ((digitsToNat ['7', '5'] : ℚ)) ∧
      parseAmount "75B" = some ((digitsToNat ['7', '5'] : ℚ) * 1000000000) := by
  refine ⟨parseAmount_ok.1 "xyz" (by decide), ?_, ?_⟩
  · exact (parseAmount_ok.2 ['7', '5'] (by decide) (by decide)).1
  · exact (parseAmount_ok.2 ['7', '5'] (by decide) (by decide)).2 'B' 1000000000 (by simp)

/-- Witness for calculateRelevance_formula at a concrete context. -/
theorem calculateRelevance_formula_witness :
    calculateRelevance "more about kkr" (some ⟨["KKR"], ["funds"]⟩) =
      min (0.3 * (1 : ℚ) + 0.2 * (0 : ℚ)) 1 := by
  have h := (calculateRelevance_formula "more about kkr" ⟨["KKR"], ["funds"]⟩).2.2
    (by decide)
  have h1 : (lastN 3 (["KKR"] : List String)).countP
      (fun e => jsIncludes (lowerStr "more about kkr") (lowerStr e)) = 1 := by decide
  have h2 : (lastN 2 (["funds"] : List String)).countP
      (fun t => jsIncludes (lowerStr "more about kkr") (lowerStr t)) = 0 := by decide
  rw [h]
  simp only [h1, h2]
  norm_num


/-- C6: with no store configured the whole plan fails with the single
configuration error; with a store, a query that throws is recorded under
its own name as an error outcome with zero time and zero count, while
every other named query still executes and its rows appear in the result
under its name. -/
theorem executeQueryPlan_isolated (ex : QueryData → Except String StoreResult)
    (timing : String → Nat) (queries : List (String × QueryData)) :
    executeQueryPlan none timing queries =
      Except.error "No database connection available (graphDb or knowledgeStore)" ∧
    (∀ name q e, (name, q) ∈ queries → ex q = Except.error e →
      ∃ rs, executeQueryPlan (some ex) timing queries = Except.ok rs ∧
        (name, { records := none, error := some e, executionTime := 0,
                 recordCount := 0 : QueryOutcome }) ∈ rs) ∧
    (∀ name q r, (name, q) ∈ queries → ex q = Except.ok r →
      ∃ rs, executeQueryPlan (some ex) timing queries = Except.ok rs ∧
        (name, { records := r.records, error := none, executionTime := timing name,
                 recordCount := (r.records.getD []).length : QueryOutcome }) ∈ rs) := by
  refine ⟨rfl, ?_, ?_⟩
  · intro name q e hmem herr
    refine ⟨_, rfl, ?_⟩
    refine List.mem_map.mpr ⟨(name, q), hmem, ?_⟩
    simp [runNamedQuery, herr]
  · intro name q r hmem hok
    refine ⟨_, rfl, ?_⟩
    refine List.mem_map.mpr ⟨(name, q), hmem, ?_⟩
    obtain ⟨rrec⟩ := r
    cases rrec <;> simp [runNamedQuery, hok]

/-- Witness for executeQueryPlan_isolated on a concrete two-query plan. -/
theorem executeQueryPlan_isolated_witness :
    (∃ rs, executeQueryPlan (some storeStub) (fun _ => 5) planStub = Except.ok rs ∧
      ("broken", { records := none, error := some "boom", executionTime := 0,
                   recordCount := 0 : QueryOutcome }) ∈ rs) ∧
    (∃ rs, executeQueryPlan (some storeStub) (fun _ => 5) planStub = Except.ok rs ∧
      ("healthy", { records := some ["row1"], error := none, executionTime := 5,
                    recordCount := ((some ["row1"] : Option (List String)).getD []).length :
                    QueryOutcome }) ∈ rs) := by
  constructor
  · exact (executeQueryPlan_isolated storeStub (fun _ => 5) planStub).2.1
      "broken" { cypher := "bad", parameters := [] } "boom" (by simp [planStub]) rfl
  · exact (executeQueryPlan_isolated storeStub (fun _ => 5) planStub).2.2
      "healthy" { cypher := "good", parameters := [] } { records := some ["row1"] }
      (by simp [planStub]) rfl

/-- C7: processQuery is a total function into structured responses; when
any pipeline stage throws it returns the degraded response carrying the
generic apology, confidence 0 and the generic follow-up suggestions, and
when the pipeline completes it returns the completed response. -/
theorem processQuery_catches {Ctx NLUOut QR Resp Turn : Type}
    (deps : AgentDeps Ctx NLUOut QR Resp Turn) (message : String)
    (conversationId : Option String) (enableConversationAnalytics : Bool) :
    (∀ e, runTurn deps message conversationId enableConversationAnalytics = Except.error e →
      processQuery deps message conversationId enableConversationAnalytics =
        AgentResult.degraded
          { message := e.message, etype := "agent_error", code := e.code.getD "UNKNOWN_ERROR" }
          agentApology 0 agentFollowUps) ∧
    (∀ s, runTurn deps message conversationId enableConversationAnalytics = Except.ok s →
      processQuery deps message conversationId enableConversationAnalytics =
        AgentResult.completed s) := by
  constructor <;> intro x hx <;> simp [processQuery, hx]

/-- Witness for processQuery_catches: a throwing NLU stage yields exactly
the degraded response. -/
theorem processQuery_catches_witness :
    processQuery depsStub "hello" none false =
      AgentResult.degraded
        { message := "boom", etype := "agent_error", code := "UNKNOWN_ERROR" }
        agentApology 0 agentFollowUps :=
  (processQuery_catches depsStub "hello" none false).1 { message := "boom", code := none } rfl


/-! Helper evaluations for the source-intelligence theorems. -/

/-- The decay factor at the registration instant is 1. -/
theorem calculateTimeDecay_self (t : ℝ) : calculateTimeDecay t t = 1 := by
  simp [calculateTimeDecay, sub_self, zero_div, Real.rpow_zero]

/-- The decay factor is nonnegative. -/
theorem calculateTimeDecay_nonneg (now t : ℝ) : 0 ≤ calculateTimeDecay now t :=
  Real.rpow_nonneg (by norm_num) _

/-- After the registration instant the decay factor is at most 1. -/
theorem calculateTimeDecay_le_one (now t : ℝ) (h : t ≤ now) :
    calculateTimeDecay now t ≤ 1 := by
  refine Real.rpow_le_one (by norm_num) (by norm_num) ?_
  have h1 : (0 : ℝ) ≤ now - t := by linarith
  positivity

/-- The registry entry of AI_INFERENCE. -/
theorem initialRegistry_AI (t0 : ℝ) :
    initializeSourceAuthority t0 "AI_INFERENCE" =
      some (registerSourceType
        { authority := 0.65
          category := "generated"
          reliability := 0.70
          timeliness := 1.0
          verificationRequired := true } t0) := by
  simp [initializeSourceAuthority]

/-- The registry entry of INDUSTRY_DATABASES. -/
theorem initialRegistry_INDUSTRY (t0 : ℝ) :
    initializeSourceAuthority t0 "INDUSTRY_DATABASES" =
      some (registerSourceType
        { authority := 0.80
          category := "industry"
          reliability := 0.85
          timeliness := 0.90
          verificationRequired := true } t0) := by
  simp [initializeSourceAuthority]

/-- Authority of AI_INFERENCE as a function of the decay factor. -/
theorem authority_AI_formula (t0 now : ℝ) :
    getSourceAuthority (initializeSourceAuthority t0) now "AI_INFERENCE" =
      min (max (0.65 * calculateTimeDecay now t0) 0.1) 0.98 := by
  simp [getSourceAuthority, initialRegistry_AI, registerSourceType]

/-- Authority of INDUSTRY_DATABASES as a function of the decay factor. -/
theorem authority_INDUSTRY_formula (t0 now : ℝ) :
    getSourceAuthority (initializeSourceAuthority t0) now "INDUSTRY_DATABASES" =
      min (max (0.80 * calculateTimeDecay now t0) 0.1) 0.98 := by
  simp [getSourceAuthority, initialRegistry_INDUSTRY, registerSourceType]

/-- At the registration instant AI_INFERENCE scores exactly 0.65. -/
theorem authority_AI_at_reg : getSourceAuthority reg0 0 "AI_INFERENCE" = 0.65 := by
  rw [reg0, authority_AI_formula, calculateTimeDecay_self]
  norm_num

/-- At the registration instant INDUSTRY_DATABASES scores exactly 0.8. -/
theorem authority_INDUSTRY_at_reg :
    getSourceAuthority reg0 0 "INDUSTRY_DATABASES" = 0.8 := by
  rw [reg0, authority_INDUSTRY_formula, calculateTimeDecay_self]
  norm_num

/-- After registration the AI_INFERENCE authority never exceeds 0.65. -/
theorem authority_AI_le (t0 now : ℝ) (h : t0 ≤ now) :
    getSourceAuthority (initializeSourceAuthority t0) now "AI_INFERENCE" ≤ 0.65 := by
  rw [authority_AI_formula]
  have hd1 := calculateTimeDecay_le_one now t0 h
  have hd0 := calculateTimeDecay_nonneg now t0
  have hx : 0.65 * calculateTimeDecay now t0 ≤ 0.65 := by nlinarith
  have : max (0.65 * calculateTimeDecay now t0) 0.1 ≤ 0.65 :=
    max_le hx (by norm_num)
  exact le_trans (min_le_left _ _) this

/-- C5: for a registered source type the returned authority is the base
authority, blended 70/30 with the mean of the recorded performance
outcomes when any exist, multiplied by the 30-day half-life decay factor
exactly when the category is neither official nor regulatory, clamped to
the interval from 0.1 to 0.98; in particular the result always lies in
that interval. -/
theorem getSourceAuthority_spec (registry : Registry) (now : ℝ) (sourceType : String)
    (cfg : SourceConfig) (h : registry sourceType = some cfg) :
    getSourceAuthority registry now sourceType =
      min (max ((if 0 < cfg.recentPerformance.length then
            cfg.authority * 0.7 +
              (cfg.recentPerformance.sum / cfg.recentPerformance.length) * 0.3
          else cfg.authority) *
        (if cfg.category ≠ "official" ∧ cfg.category ≠ "regulatory" then
            calculateTimeDecay now cfg.registeredAt
          else 1)) 0.1) 0.98 ∧
    0.1 ≤ getSourceAuthority registry now sourceType ∧
    getSourceAuthority registry now sourceType ≤ 0.98 := by
  have heq : getSourceAuthority registry now sourceType =
      min (max ((if 0 < cfg.recentPerformance.length then
            cfg.authority * 0.7 +
              (cfg.recentPerformance.sum / cfg.recentPerformance.length) * 0.3
          else cfg.authority) *
        (if cfg.category ≠ "official" ∧ cfg.category ≠ "regulatory" then
            calculateTimeDecay now cfg.registeredAt
          else 1)) 0.1) 0.98 := by
    simp only [getSourceAuthority, h]
    by_cases hc : cfg.category ≠ "official" ∧ cfg.category ≠ "regulatory" <;>
      simp [hc, mul_one]
  refine ⟨heq, ?_, ?_⟩
  · rw [heq]
    exact le_min (le_max_right _ _) (by norm_num)
  · rw [heq]
    exact min_le_right _ _

/-- Witness for getSourceAuthority_spec: the freshly registered
AI_INFERENCE entry, whose clamped authority is 0.65 and within bounds. -/
theorem getSourceAuthority_spec_witness :
    reg0 "AI_INFERENCE" =
      some (registerSourceType
        { authority := 0.65
          category := "generated"
          reliability := 0.70
          timeliness := 1.0
          verificationRequired := true } 0) ∧
    (0.1 ≤ getSourceAuthority reg0 0 "AI_INFERENCE" ∧
     getSourceAuthority reg0 0 "AI_INFERENCE" ≤ 0.98) := by
  have h := initialRegistry_AI 0
  refine ⟨h, ?_⟩
  exact (getSourceAuthority_spec reg0 0 "AI_INFERENCE" _ h).2


/-- The accumulating validation fold: the first component totals the
authorities, the second totals the authorities of agreeing sources. -/
theorem crossStep_fold {α : Type} (registry : Registry) (now : ℝ) :
    ∀ (sources : List (SourceInput α)) (acc : ℝ × ℝ × List (ValInfo α) × List (ValInfo α)),
      (sources.foldl (crossStep registry now) acc).1 =
        acc.1 + (sources.map (fun s => getSourceAuthority registry now s.type)).sum ∧
      (sources.foldl (crossStep registry now) acc).2.1 =
        acc.2.1 + ((sources.filter (fun s => s.agreement)).map
          (fun s => getSourceAuthority registry now s.type)).sum := by
  intro sources
  induction sources with
  | nil => intro acc; simp
  | cons src rest ih =>
    intro acc
    obtain ⟨h1, h2⟩ := ih (crossStep registry now acc src)
    rw [List.foldl_cons]
    constructor
    · rw [h1]
      by_cases hagr : src.agreement = true
      all_goals simp [crossStep, hagr]
      all_goals ring
    · rw [h2]
      by_cases hagr : src.agreement = true
      all_goals simp [crossStep, hagr, List.filter_cons]
      all_goals ring

/-- crossStep_fold at the zero accumulator of the code. -/
theorem crossStep_fold_zero {α : Type} (registry : Registry) (now : ℝ)
    (sources : List (SourceInput α)) :
    (sources.foldl (crossStep registry now)
        ((0 : ℝ), (0 : ℝ), ([] : List (ValInfo α)), ([] : List (ValInfo α)))).1 =
      (sources.map (fun s => getSourceAuthority registry now s.type)).sum ∧
    (sources.foldl (crossStep registry now)
        ((0 : ℝ), (0 : ℝ), ([] : List (ValInfo α)), ([] : List (ValInfo α)))).2.1 =
      ((sources.filter (fun s => s.agreement)).map
        (fun s => getSourceAuthority registry now s.type)).sum := by
  have h := crossStep_fold registry now sources (0, 0, [], [])
  simpa using h

/-- C4: on a cache miss, a single source scores exactly its authority; two
or more sources score the authority-weighted agreement ratio, boosted by
1.2 and capped at 0.95 exactly when the ratio exceeds 0.8 and at least 3
sources are present; three agreeing sources of authority 0.8 each score
exactly 0.95. -/
theorem crossValidateInformation_spec {α : Type} (registry : Registry) (now : ℝ)
    (cache : ValidationCache α) (information : String)
    (sources : List (SourceInput α))
    (hmiss : cache.lookup (generateValidationKey information) = none) :
    (∀ s, sources = [s] →
      (crossValidateInformation registry now cache information sources).1.confidence =
        getSourceAuthority registry now s.type) ∧
    (∀ s1 s2 rest, sources = s1 :: s2 :: rest →
      (crossValidateInformation registry now cache information sources).1.confidence =
        (if 0.8 < ((sources.filter (fun s => s.agreement)).map
              (fun s => getSourceAuthority registry now s.type)).sum /
            (sources.map (fun s => getSourceAuthority registry now s.type)).sum ∧
            3 ≤ sources.length then
          min ((((sources.filter (fun s => s.agreement)).map
              (fun s => getSourceAuthority registry now s.type)).sum /
            (sources.map (fun s => getSourceAuthority registry now s.type)).sum) * 1.2)
            0.95
        else
          ((sources.filter (fun s => s.agreement)).map
              (fun s => getSourceAuthority registry now s.type)).sum /
            (sources.map (fun s => getSourceAuthority registry now s.type)).sum)) ∧
    ((∀ s ∈ sources, s.agreement = true) →
     (∀ s ∈ sources, getSourceAuthority registry now s.type = 0.8) →
     sources.length = 3 →
      (crossValidateInformation registry now cache information sources).1.confidence
        = 0.95) := by
  have key : ∀ s1 s2 rest, sources = s1 :: s2 :: rest →
      (crossValidateInformation registry now cache information sources).1.confidence =
        (if 0.8 < ((sources.filter (fun s => s.agreement)).map
              (fun s => getSourceAuthority registry now s.type)).sum /
            (sources.map (fun s => getSourceAuthority registry now s.type)).sum ∧
            3 ≤ sources.length then
          min ((((sources.filter (fun s => s.agreement)).map
              (fun s => getSourceAuthority registry now s.type)).sum /
            (sources.map (fun s => getSourceAuthority registry now s.type)).sum) * 1.2)
            0.95
        else
          ((sources.filter (fun s => s.agreement)).map
              (fun s => getSourceAuthority registry now s.type)).sum /
            (sources.map (fun s => getSourceAuthority registry now s.type)).sum) := by
    intro s1 s2 rest hs
    subst hs
    obtain ⟨hz1, hz2⟩ := crossStep_fold_zero registry now (s1 :: s2 :: rest)
    simp only [crossValidateInformation, hmiss]
    rw [hz1, hz2]
  refine ⟨?_, key, ?_⟩
  · intro s hs
    subst hs
    simp [crossValidateInformation, hmiss]
  · intro hagree h08 hlen
    obtain ⟨a, b, c, rfl⟩ := List.length_eq_three.mp hlen
    have hfil : List.filter (fun s => s.agreement) [a, b, c] = [a, b, c] := by
      rw [List.filter_eq_self]
      intro x hx
      exact hagree x hx
    have hsum : (List.map (fun s => getSourceAuthority registry now s.type) [a, b, c]).sum
        = (2.4 : ℝ) := by
      have ha := h08 a (by simp)
      have hb := h08 b (by simp)
      have hc := h08 c (by simp)
      simp [ha, hb, hc]
      norm_num
    rw [key a b [c] rfl]
    rw [hfil, hsum]
    norm_num

/-- Witness for crossValidateInformation_spec: three agreeing
industry-database sources at registration time score exactly 0.95. -/
theorem crossValidateInformation_spec_witness :
    (([] : ValidationCache Unit).lookup (generateValidationKey "acme") = none) ∧
    (crossValidateInformation reg0 0 ([] : ValidationCache Unit) "acme"
        [industrySource, industrySource, industrySource]).1.confidence = 0.95 := by
  refine ⟨rfl, ?_⟩
  refine (crossValidateInformation_spec reg0 0 [] "acme"
    [industrySource, industrySource, industrySource] rfl).2.2 ?_ ?_ rfl
  · intro s hs
    simp only [List.mem_cons, List.not_mem_nil, or_false] at hs
    rcases hs with rfl | rfl | rfl <;> rfl
  · intro s hs
    simp only [List.mem_cons, List.not_mem_nil, or_false] at hs
    rcases hs with rfl | rfl | rfl <;> exact authority_INDUSTRY_at_reg

/-- C10: validation results are cached solely by the claim hash; after a
first call, any later call whose claim hashes to the same key returns the
first result unchanged, regardless of its own source list, registry state
or time. -/
theorem crossValidateInformation_cached {α : Type} (registry registry2 : Registry)
    (now now2 : ℝ) (cache : ValidationCache α) (info1 info2 : String)
    (src1 src2 : List (SourceInput α))
    (hkey : generateValidationKey info2 = generateValidationKey info1) :
    crossValidateInformation registry2 now2
        (crossValidateInformation registry now cache info1 src1).2 info2 src2 =
      ((crossValidateInformation registry now cache info1 src1).1,
       (crossValidateInformation registry now cache info1 src1).2) := by
  cases hc : cache.lookup (generateValidationKey info1) with
  | some v =>
    simp only [crossValidateInformation, hc, hkey]
  | none =>
    simp only [crossValidateInformation, hc, hkey]
    simp [List.lookup_cons]

/-- Witness for crossValidateInformation_cached: a repeated claim with a
different source list returns the first validation. -/
theorem crossValidateInformation_cached_witness :
    crossValidateInformation reg0 0
        (crossValidateInformation reg0 0 ([] : ValidationCache Unit) "acme"
          [industrySource]).2 "acme" [newsSource] =
      ((crossValidateInformation reg0 0 ([] : ValidationCache Unit) "acme"
          [industrySource]).1,
       (crossValidateInformation reg0 0 ([] : ValidationCache Unit) "acme"
          [industrySource]).2) :=
  crossValidateInformation_cached reg0 reg0 0 0 [] "acme" "acme"
    [industrySource] [newsSource] rfl


/-! Helper lemmas for the co-investment inference claim. -/

/-- reg0 unfolded. -/
theorem reg0_def : reg0 = initializeSourceAuthority 0 := rfl

/-- The confidence of a single-source weighted relationship is the capped
authority of that source. -/
theorem cwr_single_confidence {α : Type} (registry : Registry) (now : ℝ)
    (e1 e2 : Entity) (ty : String) (src : WSource α) :
    (createWeightedRelationship registry now e1 e2 ty [src]).confidence =
      min (getSourceAuthority registry now src.type) 0.95 := by
  simp [createWeightedRelationship]

/-- processRelationshipCandidate returns nothing, or a weighted
relationship built from one AI_INFERENCE source. -/
theorem proc_shape (registry : Registry) (now : ℝ) (record : InfRecord)
    (patternName : String) (pattern : InferencePattern) :
    processRelationshipCandidate registry now record patternName pattern = none ∨
    ∃ e1 e2 d,
      processRelationshipCandidate registry now record patternName pattern =
        some (createWeightedRelationship registry now e1 e2
          (mapPatternToRelationshipType patternName)
          [{ type := "AI_INFERENCE", data := d, timestamp := none }]) := by
  unfold processRelationshipCandidate
  cases record.entity1 <|> record.parent <|> record.leader with
  | none =>
    cases record.entity2 <|> record.subsidiary <|> record.follower with
    | none => exact Or.inl rfl
    | some e2 => exact Or.inl rfl
  | some e1 =>
    cases record.entity2 <|> record.subsidiary <|> record.follower with
    | none => exact Or.inl rfl
    | some e2 => exact Or.inr ⟨e1, e2, _, rfl⟩

/-- Any relationship the pipeline produces after the registration instant
has confidence at most 0.65, the decayed AI_INFERENCE authority. -/
theorem proc_conf_le (t0 now : ℝ) (h : t0 ≤ now) (record : InfRecord)
    (patternName : String) (pattern : InferencePattern)
    (r : Relationship InferenceData)
    (hr : processRelationshipCandidate (initializeSourceAuthority t0) now record
        patternName pattern = some r) :
    r.confidence ≤ 0.65 := by
  rcases proc_shape (initializeSourceAuthority t0) now record patternName pattern with
    hnone | ⟨e1, e2, d, hsome⟩
  · rw [hnone] at hr
    cases hr
  · rw [hsome] at hr
    injection hr with hr
    subst hr
    rw [cwr_single_confidence]
    exact le_trans (min_le_left _ _) (authority_AI_le t0 now h)

/-- For a CO_INVESTMENT candidate the evidence payload records exactly the
pattern formula while the relationship confidence is the capped
AI_INFERENCE authority. -/
theorem proc_co_sources (registry : Registry) (now : ℝ) (record : InfRecord)
    (n : Nat) (hn : record.overlap_count = some n) (r : Relationship InferenceData)
    (hr : processRelationshipCandidate registry now record "CO_INVESTMENT"
        coInvestmentPattern = some r) :
    (r.sources.map (fun s => s.data.confidence)) = [min 0.95 (0.5 + (n : ℝ) * 0.1)] ∧
    r.confidence = min (getSourceAuthority registry now "AI_INFERENCE") 0.95 := by
  unfold processRelationshipCandidate at hr
  rcases he1 : record.entity1 <|> record.parent <|> record.leader with _ | e1
  · rw [he1] at hr
    cases hr
  · rcases he2 : record.entity2 <|> record.subsidiary <|> record.follower with _ | e2
    · rw [he1, he2] at hr
      cases hr
    · rw [he1, he2] at hr
      simp only [if_true, eq_self_iff_true, Option.some.injEq] at hr
      subst hr
      constructor
      · simp [createWeightedRelationship, hn]
      · rw [cwr_single_confidence]

/-- Every CO_INVESTMENT candidate fails the 0.7 threshold, so the fold
only increments the failed counter and leaves the store untouched. -/
theorem inferStep_co_all_fail (t0 now : ℝ) (h : t0 ≤ now) :
    ∀ (records : List InfRecord) (p : PatternResult) (st : List StoredRel),
      records.foldl (inferStep (initializeSourceAuthority t0) now "CO_INVESTMENT"
          coInvestmentPattern) (p, st) =
        ({ p with failed := p.failed + records.length }, st) := by
  intro records
  induction records with
  | nil => intro p st; simp
  | cons rec rest ih =>
    intro p st
    rw [List.foldl_cons]
    have hstep : inferStep (initializeSourceAuthority t0) now "CO_INVESTMENT"
        coInvestmentPattern (p, st) rec = ({ p with failed := p.failed + 1 }, st) := by
      unfold inferStep
      cases hr : processRelationshipCandidate (initializeSourceAuthority t0) now rec
          "CO_INVESTMENT" coInvestmentPattern with
      | none => rfl
      | some relationship =>
        have hle : relationship.confidence ≤ 0.65 :=
          proc_conf_le t0 now h rec "CO_INVESTMENT" coInvestmentPattern relationship hr
        have hneg : ¬ (coInvestmentPattern.minConfidence ≤ relationship.confidence) := by
          have hmin : coInvestmentPattern.minConfidence = 0.7 := rfl
          rw [hmin]
          intro hcon
          linarith
        dsimp only
        rw [if_neg hneg]
    rw [hstep, ih]
    have harith : p.failed + 1 + rest.length = p.failed + (rest.length + 1) := by omega
    simp [harith]

/-- The candidate with 4 overlapping assets is returned as coRel. -/
theorem coRel_eval :
    processRelationshipCandidate reg0 0 coRecord "CO_INVESTMENT" coInvestmentPattern =
      some coRel := rfl

/-- The confidence of coRel is the AI_INFERENCE authority 0.65. -/
theorem coRel_confidence : coRel.confidence = 0.65 := by
  have h := cwr_single_confidence (α := InferenceData) reg0 0
    { id := "fundA" } { id := "fundB" } "CO_INVESTED"
    { type := "AI_INFERENCE"
      data := { pattern := "CO_INVESTMENT"
                evidence := ["Co-invested in " ++ toString (4 : Nat) ++ " assets"]
                confidence := min 0.95 (0.5 + ((4 : Nat) : ℝ) * 0.1) }
      timestamp := none }
  rw [coRel, h, authority_AI_at_reg]
  norm_num

/-- A run over the single 4-overlap candidate persists nothing. -/
theorem infer_co_eval :
    inferRelationshipsByPattern reg0 0 (fun _ => [coRecord]) "CO_INVESTMENT" [] =
      some ({ pattern := "CO_INVESTMENT"
              candidates := [coRecord]
              successful := 0
              failed := 1
              relationships := [] }, []) := by
  have hfold := inferStep_co_all_fail 0 0 le_rfl [coRecord]
    { pattern := "CO_INVESTMENT"
      candidates := [coRecord]
      successful := 0
      failed := 0
      relationships := [] } []
  unfold inferRelationshipsByPattern
  rw [reg0_def,
    show inferencePatterns.lookup "CO_INVESTMENT" = some coInvestmentPattern from rfl]
  dsimp only
  rw [hfold]
  simp

/-- C1 counterexample: on a candidate pair with exactly 4 overlapping
assets, the evidence payload carries the pattern value 0.9, but the
relationship the pipeline produces has confidence 0.65, not 0.9, and it is
not persisted: the run reports zero successes, one failure and leaves the
store unchanged. -/
theorem coInvestment_counterexample :
    processRelationshipCandidate reg0 0 coRecord "CO_INVESTMENT" coInvestmentPattern =
      some coRel ∧
    (coRel.sources.map (fun s => s.data.confidence)) =
      [min 0.95 (0.5 + ((4 : Nat) : ℝ) * 0.1)] ∧
    min (0.95 : ℝ) (0.5 + ((4 : Nat) : ℝ) * 0.1) = 0.9 ∧
    coRel.confidence = 0.65 ∧
    coRel.confidence ≠ 0.9 ∧
    inferRelationshipsByPattern reg0 0 (fun _ => [coRecord]) "CO_INVESTMENT" [] =
      some ({ pattern := "CO_INVESTMENT"
              candidates := [coRecord]
              successful := 0
              failed := 1
              relationships := [] }, []) := by
  refine ⟨coRel_eval, ?_, by norm_num, coRel_confidence, ?_, infer_co_eval⟩
  · exact (proc_co_sources reg0 0 coRecord 4 rfl coRel coRel_eval).1
  · rw [coRel_confidence]
    norm_num

/-- C1 (amended): for a co-investment candidate with n overlapping assets
the pattern formula min(0.95, 0.5 + n*0.1) is recorded only in the
evidence payload of the AI_INFERENCE source; the relationship itself
carries the capped AI_INFERENCE authority, at most 0.65 from registration
onward, which is below the 0.7 pattern minimum, so no CO_INVESTMENT
candidate is ever persisted: every run reports zero successes and leaves
the store unchanged. -/
theorem coInvestment_amended (t0 now : ℝ) (h : t0 ≤ now)
    (record : InfRecord) (n : Nat) (hn : record.overlap_count = some n)
    (r : Relationship InferenceData)
    (hr : processRelationshipCandidate (initializeSourceAuthority t0) now record
        "CO_INVESTMENT" coInvestmentPattern = some r)
    (queryExec : String → List InfRecord) (st : List StoredRel)
    (res : PatternResult) (st2 : List StoredRel)
    (hinfer : inferRelationshipsByPattern (initializeSourceAuthority t0) now queryExec
        "CO_INVESTMENT" st = some (res, st2)) :
    (r.sources.map (fun s => s.data.confidence)) = [min 0.95 (0.5 + (n : ℝ) * 0.1)] ∧
    r.confidence ≤ 0.65 ∧
    r.confidence < coInvestmentPattern.minConfidence ∧
    res.successful = 0 ∧ res.relationships = [] ∧ st2 = st := by
  obtain ⟨hsrc, _⟩ :=
    proc_co_sources (initializeSourceAuthority t0) now record n hn r hr
  have hle := proc_conf_le t0 now h record "CO_INVESTMENT" coInvestmentPattern r hr
  have hlt : r.confidence < coInvestmentPattern.minConfidence := by
    have hmin : coInvestmentPattern.minConfidence = 0.7 := rfl
    rw [hmin]
    linarith
  have hfold := inferStep_co_all_fail t0 now h
    (queryExec coInvestmentPattern.queryTemplate)
    { pattern := "CO_INVESTMENT"
      candidates := queryExec coInvestmentPattern.queryTemplate
      successful := 0
      failed := 0
      relationships := [] } st
  unfold inferRelationshipsByPattern at hinfer
  rw [show inferencePatterns.lookup "CO_INVESTMENT" = some coInvestmentPattern from rfl]
    at hinfer
  dsimp only at hinfer
  rw [hfold] at hinfer
  injection hinfer with hinj
  refine ⟨hsrc, hle, hlt, ?_, ?_, ?_⟩
  · have hp := congrArg (fun x => x.1.successful) hinj
    simpa using hp.symm
  · have hp := congrArg (fun x => x.1.relationships) hinj
    simpa using hp.symm
  · have hp := congrArg (fun x => x.2) hinj
    simpa using hp.symm

/-- Witness for coInvestment_amended at the concrete 4-overlap candidate. -/
theorem coInvestment_amended_witness :
    ((0 : ℝ) ≤ 0) ∧
    ((coRel.sources.map (fun s => s.data.confidence)) =
        [min 0.95 (0.5 + ((4 : Nat) : ℝ) * 0.1)] ∧
      coRel.confidence ≤ 0.65 ∧
      coRel.confidence < coInvestmentPattern.minConfidence ∧
      ({ pattern := "CO_INVESTMENT"
         candidates := [coRecord]
         successful := 0
         failed := 1
         relationships := [] } : PatternResult).successful = 0 ∧
      ({ pattern := "CO_INVESTMENT"
         candidates := [coRecord]
         successful := 0
         failed := 1
         relationships := [] } : PatternResult).relationships =
        ([] : List (Relationship InferenceData)) ∧
      ([] : List StoredRel) = ([] : List StoredRel)) := by
  refine ⟨le_rfl, ?_⟩
  exact coInvestment_amended 0 0 le_rfl coRecord 4 rfl coRel coRel_eval
    (fun _ => [coRecord]) [] _ [] infer_co_eval


/-! Helper lemmas for the store-uniqueness and monotonicity claim. -/

/-- The boolean undirected match unfolded to propositions. -/
theorem relMatchUndirected_iff (r : StoredRel) (f t y : String) :
    relMatchUndirected r f t y = true ↔
      (r.rtype = y ∧
        ((r.fromId = f ∧ r.toId = t) ∨ (r.fromId = t ∧ r.toId = f))) := by
  simp [relMatchUndirected, Bool.and_eq_true, Bool.or_eq_true, beq_iff_eq]

/-- A directed match is in particular an undirected match. -/
theorem relMatchDirected_undir (r : StoredRel) (f t y : String)
    (h : relMatchDirected r f t y = true) : relMatchUndirected r f t y = true := by
  simp only [relMatchDirected, Bool.and_eq_true, beq_iff_eq] at h
  rw [relMatchUndirected_iff]
  exact ⟨h.2, Or.inl ⟨h.1.1, h.1.2⟩⟩

/-- Two records that both match the same undirected key share it. -/
theorem sameUndir_of_matches {r e : StoredRel} {f t y : String}
    (hr : relMatchUndirected r f t y = true)
    (he : relMatchUndirected e f t y = true) : sameUndirKey r e := by
  rw [relMatchUndirected_iff] at hr he
  obtain ⟨hy1, h1⟩ := hr
  obtain ⟨hy2, h2⟩ := he
  refine ⟨hy1.trans hy2.symm, ?_⟩
  rcases h1 with ⟨a1, b1⟩ | ⟨a1, b1⟩ <;> rcases h2 with ⟨a2, b2⟩ | ⟨a2, b2⟩
  · exact Or.inl ⟨a1.trans a2.symm, b1.trans b2.symm⟩
  · exact Or.inr ⟨a1.trans b2.symm, b1.trans a2.symm⟩
  · exact Or.inr ⟨a1.trans b2.symm, b1.trans a2.symm⟩
  · exact Or.inl ⟨a1.trans a2.symm, b1.trans b2.symm⟩

/-- Sharing an undirected key is symmetric. -/
theorem sameUndirKey_symm {a b : StoredRel} (h : sameUndirKey a b) : sameUndirKey b a := by
  obtain ⟨hy, hp⟩ := h
  refine ⟨hy.symm, ?_⟩
  rcases hp with ⟨h1, h2⟩ | ⟨h1, h2⟩
  · exact Or.inl ⟨h1.symm, h2.symm⟩
  · exact Or.inr ⟨h2.symm, h1.symm⟩

/-- Sharing the directed triple is transitive through a middle record. -/
theorem sameTriple_trans {a b c : StoredRel} (h1 : sameTriple a b) (h2 : sameTriple b c) :
    sameTriple a c :=
  ⟨h1.1.trans h2.1, h1.2.1.trans h2.2.1, h1.2.2.trans h2.2.2⟩

/-- In a well-formed store two records sharing an undirected key are the
same record. -/
theorem storeOk_unique {st : List StoredRel} (hinv : RelStoreOk st) {r e : StoredRel}
    (hr : r ∈ st) (he : e ∈ st) (hk : sameUndirKey r e) : r = e := by
  by_contra hne
  have hsymm : Symmetric (fun a b : StoredRel => ¬ sameUndirKey a b) := by
    intro a b hab hba
    exact hab (sameUndirKey_symm hba)
  exact hinv.forall hsymm hr he hne hk

/-- createInferredRelationship when no existing record matches. -/
theorem createInferred_of_filter_nil (st : List StoredRel)
    (rel : Relationship InferenceData)
    (hex : st.filter (fun r => relMatchUndirected r rel.fromEntity.id rel.toEntity.id
      rel.rtype) = []) :
    createInferredRelationship st rel =
      gdbCreateRelationship st rel.fromEntity.id rel.toEntity.id rel.rtype
        { confidence := rel.confidence, sources := rel.sources,
          metadata := rel.metadata, inferenceType := "pattern_based" } := by
  simp only [createInferredRelationship, hex]

/-- createInferredRelationship when an existing record matches. -/
theorem createInferred_of_filter_cons (st : List StoredRel)
    (rel : Relationship InferenceData) (e : StoredRel) (rest : List StoredRel)
    (hex : st.filter (fun r => relMatchUndirected r rel.fromEntity.id rel.toEntity.id
      rel.rtype) = e :: rest) :
    createInferredRelationship st rel =
      if e.confidence < rel.confidence then updateRelationshipConfidence st rel
      else st := by
  simp only [createInferredRelationship, hex]

/-- The MERGE write appends a fresh record when no directed match exists. -/
theorem gdb_append (st : List StoredRel) (fid tid ty : String) (props : RelProps)
    (hnone : ∀ r ∈ st, relMatchDirected r fid tid ty = false) :
    gdbCreateRelationship st fid tid ty props =
      st ++ [{ fromId := fid
               toId := tid
               rtype := ty
               confidence := props.confidence
               weight := 1.0
               sources := props.sources
               metadata := props.metadata
               inferenceType := props.inferenceType }] := by
  have hany : st.any (fun r => relMatchDirected r fid tid ty) = false := by
    rw [List.any_eq_false]
    intro r hr
    simp [hnone r hr]
  simp only [gdbCreateRelationship, hany]
  simp

/-- Uniqueness is preserved by one createInferredRelationship write. -/
theorem createInferred_storeOk (st : List StoredRel)
    (rel : Relationship InferenceData) (hinv : RelStoreOk st) :
    RelStoreOk (createInferredRelationship st rel) := by
  cases hex : st.filter (fun r => relMatchUndirected r rel.fromEntity.id rel.toEntity.id
      rel.rtype) with
  | nil =>
    have hnoneu : ∀ r ∈ st,
        relMatchUndirected r rel.fromEntity.id rel.toEntity.id rel.rtype = false := by
      intro r hr
      have := List.filter_eq_nil_iff.mp hex r hr
      simpa using this
    have hnoned : ∀ r ∈ st,
        relMatchDirected r rel.fromEntity.id rel.toEntity.id rel.rtype = false := by
      intro r hr
      by_contra hc
      have hd : relMatchDirected r rel.fromEntity.id rel.toEntity.id rel.rtype = true := by
        revert hc
        cases relMatchDirected r rel.fromEntity.id rel.toEntity.id rel.rtype <;> simp
      have := relMatchDirected_undir _ _ _ _ hd
      rw [hnoneu r hr] at this
      cases this
    rw [createInferred_of_filter_nil st rel hex, gdb_append st _ _ _ _ hnoned]
    rw [RelStoreOk, List.pairwise_append]
    refine ⟨hinv, List.pairwise_singleton _ _, ?_⟩
    intro a ha b hb
    have hb1 := List.mem_singleton.mp hb
    subst hb1
    intro hsame
    have hmatch : relMatchUndirected a rel.fromEntity.id rel.toEntity.id rel.rtype
        = true := by
      rw [relMatchUndirected_iff]
      simpa using hsame
    rw [hnoneu a ha] at hmatch
    cases hmatch
  | cons e rest =>
    rw [createInferred_of_filter_cons st rel e rest hex]
    by_cases hlt : e.confidence < rel.confidence
    · rw [if_pos hlt]
      rw [updateRelationshipConfidence, RelStoreOk, List.pairwise_map]
      refine hinv.imp ?_
      intro a b hab hsame
      apply hab
      by_cases hma : relMatchUndirected a rel.fromEntity.id rel.toEntity.id rel.rtype
          = true <;>
        by_cases hmb : relMatchUndirected b rel.fromEntity.id rel.toEntity.id rel.rtype
          = true <;>
        simpa [hma, hmb, sameUndirKey] using hsame
    · rw [if_neg hlt]
      exact hinv

/-- One write never lowers any stored confidence, and keeps every triple. -/
theorem createInferred_mono (st : List StoredRel)
    (rel : Relationship InferenceData) (hinv : RelStoreOk st) :
    ∀ r ∈ st, ∃ r2 ∈ createInferredRelationship st rel,
      sameTriple r r2 ∧ r.confidence ≤ r2.confidence := by
  intro r hr
  cases hex : st.filter (fun x => relMatchUndirected x rel.fromEntity.id rel.toEntity.id
      rel.rtype) with
  | nil =>
    have hnoneu : ∀ x ∈ st,
        relMatchUndirected x rel.fromEntity.id rel.toEntity.id rel.rtype = false := by
      intro x hx
      have := List.filter_eq_nil_iff.mp hex x hx
      simpa using this
    have hnoned : ∀ x ∈ st,
        relMatchDirected x rel.fromEntity.id rel.toEntity.id rel.rtype = false := by
      intro x hx
      by_contra hc
      have hd : relMatchDirected x rel.fromEntity.id rel.toEntity.id rel.rtype = true := by
        revert hc
        cases relMatchDirected x rel.fromEntity.id rel.toEntity.id rel.rtype <;> simp
      have := relMatchDirected_undir _ _ _ _ hd
      rw [hnoneu x hx] at this
      cases this
    rw [createInferred_of_filter_nil st rel hex, gdb_append st _ _ _ _ hnoned]
    exact ⟨r, List.mem_append_left _ hr, ⟨rfl, rfl, rfl⟩, le_refl _⟩
  | cons e rest =>
    have hemem : e ∈ st ∧
        relMatchUndirected e rel.fromEntity.id rel.toEntity.id rel.rtype = true := by
      have : e ∈ st.filter (fun x => relMatchUndirected x rel.fromEntity.id
          rel.toEntity.id rel.rtype) := by
        rw [hex]
        exact List.mem_cons_self e rest
      exact List.mem_filter.mp this
    rw [createInferred_of_filter_cons st rel e rest hex]
    by_cases hlt : e.confidence < rel.confidence
    · rw [if_pos hlt]
      rw [updateRelationshipConfidence]
      by_cases hm : relMatchUndirected r rel.fromEntity.id rel.toEntity.id rel.rtype
          = true
      · have hre : r = e := storeOk_unique hinv hr hemem.1
          (sameUndir_of_matches hm hemem.2)
        refine ⟨_, List.mem_map_of_mem _ hr, ?_⟩
        rw [if_pos hm]
        exact ⟨⟨rfl, rfl, rfl⟩, by rw [hre]; exact le_of_lt hlt⟩
      · refine ⟨_, List.mem_map_of_mem _ hr, ?_⟩
        rw [if_neg hm]
        exact ⟨⟨rfl, rfl, rfl⟩, le_refl _⟩
    · rw [if_neg hlt]
      exact ⟨r, hr, ⟨rfl, rfl, rfl⟩, le_refl _⟩

/-- A write whose confidence does not exceed the stored one is a no-op. -/
theorem createInferred_no_downgrade (st : List StoredRel)
    (rel : Relationship InferenceData) (hinv : RelStoreOk st) :
    ∀ r ∈ st,
      relMatchUndirected r rel.fromEntity.id rel.toEntity.id rel.rtype = true →
      rel.confidence ≤ r.confidence → createInferredRelationship st rel = st := by
  intro r hr hmatch hle
  cases hex : st.filter (fun x => relMatchUndirected x rel.fromEntity.id rel.toEntity.id
      rel.rtype) with
  | nil =>
    have := List.filter_eq_nil_iff.mp hex r hr
    rw [hmatch] at this
    simp at this
  | cons e rest =>
    have hemem : e ∈ st ∧
        relMatchUndirected e rel.fromEntity.id rel.toEntity.id rel.rtype = true := by
      have : e ∈ st.filter (fun x => relMatchUndirected x rel.fromEntity.id
          rel.toEntity.id rel.rtype) := by
        rw [hex]
        exact List.mem_cons_self e rest
      exact List.mem_filter.mp this
    have hre : r = e := storeOk_unique hinv hr hemem.1
      (sameUndir_of_matches hmatch hemem.2)
    rw [createInferred_of_filter_cons st rel e rest hex, if_neg]
    rw [← hre]
    exact not_lt_of_le hle

/-- Monotonicity composes over a whole sequence of inference writes. -/
theorem createInferred_fold_mono (rels : List (Relationship InferenceData)) :
    ∀ (st : List StoredRel), RelStoreOk st → ∀ r ∈ st,
      ∃ r2 ∈ rels.foldl createInferredRelationship st,
        sameTriple r r2 ∧ r.confidence ≤ r2.confidence := by
  induction rels with
  | nil =>
    intro st _ r hr
    exact ⟨r, hr, ⟨rfl, rfl, rfl⟩, le_refl _⟩
  | cons rel rels ih =>
    intro st hinv r hr
    obtain ⟨r2, hr2, ht2, hc2⟩ := createInferred_mono st rel hinv r hr
    obtain ⟨r3, hr3, ht3, hc3⟩ := ih (createInferredRelationship st rel)
      (createInferred_storeOk st rel hinv) r2 hr2
    rw [List.foldl_cons]
    exact ⟨r3, hr3, sameTriple_trans ht2 ht3, le_trans hc2 hc3⟩

/-- C2: in a well-formed store, one inference write preserves the
at-most-one-record-per-pair-and-type invariant (hence at most one record
per directed (from, to, type) triple); every stored confidence is
non-decreasing under a write and under any sequence of writes; and a write
whose confidence does not strictly exceed the matching stored record is a
no-op, never a downgrade. -/
theorem createInferredRelationship_monotone (st : List StoredRel)
    (rel : Relationship InferenceData) (hinv : RelStoreOk st) :
    RelStoreOk (createInferredRelationship st rel) ∧
    (createInferredRelationship st rel).Pairwise (fun a b => ¬ sameTriple a b) ∧
    (∀ r ∈ st, ∃ r2 ∈ createInferredRelationship st rel,
      sameTriple r r2 ∧ r.confidence ≤ r2.confidence) ∧
    (∀ r ∈ st,
      relMatchUndirected r rel.fromEntity.id rel.toEntity.id rel.rtype = true →
      rel.confidence ≤ r.confidence → createInferredRelationship st rel = st) ∧
    (∀ rels : List (Relationship InferenceData), ∀ r ∈ st,
      ∃ r2 ∈ rels.foldl createInferredRelationship st,
        sameTriple r r2 ∧ r.confidence ≤ r2.confidence) := by
  refine ⟨createInferred_storeOk st rel hinv, ?_,
    createInferred_mono st rel hinv, createInferred_no_downgrade st rel hinv,
    fun rels => createInferred_fold_mono rels st hinv⟩
  refine (createInferred_storeOk st rel hinv).imp ?_
  intro a b hab ht
  exact hab ⟨ht.2.2, Or.inl ⟨ht.1, ht.2.1⟩⟩

/-- Witness for createInferredRelationship_monotone on the empty store. -/
theorem createInferredRelationship_monotone_witness :
    RelStoreOk ([] : List StoredRel) ∧
    RelStoreOk (createInferredRelationship [] coRel) := by
  have hinv : RelStoreOk ([] : List StoredRel) := List.Pairwise.nil
  exact ⟨hinv, (createInferredRelationship_monotone [] coRel hinv).1⟩


/-! ### EntityExtractor (claim C3) -/

/-- The counter components of the inner pattern fold: one per pattern
attempted, one per pattern with a match. -/
theorem entityFold_counts (s : List Char) (c : String) (ps : List RE) :
    ∀ a : List ExtractedEntity × Nat × Nat,
      ((ps.foldl (entityFoldStep s c) a).2.1 =
        a.2.1 + (ps.filter (fun re => !(reMatchAll s re).isEmpty)).length) ∧
      ((ps.foldl (entityFoldStep s c) a).2.2 = a.2.2 + ps.length) := by
  induction ps with
  | nil => intro a; simp
  | cons re ps ih =>
      intro a
      refine ⟨?_, ?_⟩ <;> rw [List.foldl_cons]
      · rw [(ih (entityFoldStep s c a re)).1]
        by_cases hm : (reMatchAll s re).isEmpty
        all_goals simp [entityFoldStep, hm, List.filter_cons]
        all_goals omega
      · rw [(ih (entityFoldStep s c a re)).2]
        simp [entityFoldStep]
        omega

/-- The counter components of the outer category fold. -/
theorem categoryFold_counts (s : List Char) (cats : List (String × EntityCategory)) :
    ∀ acc : List (String × List ExtractedEntity) × Nat × Nat,
      ((cats.foldl (categoryFoldStep s) acc).2.1 =
        acc.2.1 + (cats.map (fun cat =>
          (cat.2.patterns.filter (fun re => !(reMatchAll s re).isEmpty)).length)).sum) ∧
      ((cats.foldl (categoryFoldStep s) acc).2.2 =
        acc.2.2 + (cats.map (fun cat => cat.2.patterns.length)).sum) := by
  induction cats with
  | nil => intro acc; simp
  | cons cat cats ih =>
      intro acc
      refine ⟨?_, ?_⟩ <;> rw [List.foldl_cons]
      · rw [(ih (categoryFoldStep s acc cat)).1]
        have h := (entityFold_counts s cat.2.ctype cat.2.patterns
          ([], acc.2.1, acc.2.2)).1
        simp only [categoryFoldStep]
        rw [h]
        simp
        omega
      · rw [(ih (categoryFoldStep s acc cat)).2]
        have h := (entityFold_counts s cat.2.ctype cat.2.patterns
          ([], acc.2.1, acc.2.2)).2
        simp only [categoryFoldStep]
        rw [h]
        simp
        omega

/-- The overall extraction confidence, as the code computes it. -/
theorem extract_conf_eq (message : String) :
    (extract message).confidence = (patternsMatched message : ℚ) / 16 := by
  have h := categoryFold_counts message.toList entityPatternTable ([], 0, 0)
  have h16 : (entityPatternTable.map (fun cat => cat.2.patterns.length)).sum = 16 := by
    decide
  simp only [extract, h.1, h.2, h16, patternsMatched]
  norm_num

/-- C3 counterexample: on the message "$5 million" both amount patterns
match (no other pattern does), so two of the sixteen patterns have a match
while only one category does; the code sets the overall confidence to
2/16 = 1/8, not to the 1/16 the specification sentence describes. -/
theorem extract_confidence_ne_claim :
    patternsMatched "$5 million" = 2 ∧
    categoriesWithMatch "$5 million" = 1 ∧
    claimConfidence "$5 million" = 1 / 16 ∧
    (extract "$5 million").confidence = 1 / 8 ∧
    (extract "$5 million").confidence ≠ claimConfidence "$5 million" := by
  have h2 : patternsMatched "$5 million" = 2 := by decide
  have h1 : categoriesWithMatch "$5 million" = 1 := by decide
  have hc : claimConfidence "$5 million" = 1 / 16 := by
    rw [claimConfidence, h1, show totalPatternCount = 16 from by decide]
    norm_num
  have he : (extract "$5 million").confidence = 1 / 8 := by
    rw [extract_conf_eq, h2]
    norm_num
  refine ⟨h2, h1, hc, he, ?_⟩
  rw [he, hc]
  norm_num

/-- C3 (amended): EntityExtractor.extract attempts all 16 patterns and
sets the overall confidence to the number of patterns with at least one
match divided by the number of patterns attempted (the numerator counts
matching patterns, not matching categories); it is 0 when no pattern
matches. -/
theorem extract_confidence_formula (message : String) :
    totalPatternCount = 16 ∧
    (extract message).confidence =
      (patternsMatched message : ℚ) / (totalPatternCount : ℚ) ∧
    (patternsMatched message = 0 → (extract message).confidence = 0) := by
  refine ⟨by decide, ?_, ?_⟩
  · rw [extract_conf_eq, show totalPatternCount = 16 from by decide]
    norm_num
  · intro h0
    rw [extract_conf_eq, h0]
    norm_num

/-- The formula theorem applied to the empty message, whose sixteen
pattern runs all fail. -/
theorem extract_confidence_formula_witness :
    patternsMatched "" = 0 ∧ (extract "").confidence = 0 :=
  ⟨by decide, (extract_confidence_formula "").2.2 (by decide)⟩

end KS
